import Mathlib

/-!
Verification of the merge-and-reconcile engine of bin/convert_from_xsede.py.

The Python source is shallowly embedded as executable Lean definitions:

* Python strings are Lean strings; the Python method str.startswith is
  modelled at the code-point level (Python strings are sequences of code
  points) by strStartsWith below.
* Python dicts (insertion ordered, last assignment wins) are association
  lists with the in-place insert dinsert.
* The Django persistence layer is modelled by an explicit Store value:
  the News table is a list of NewsItem rows keyed by URN, and the
  News_Associations table is a list of NewsAssociation rows with an
  auto-increment primary key (nextId).
* DataError and IntegrityError raised by a save or delete are injected
  through a FailSpec oracle.  In the Python source each handler for these
  exceptions evaluates e.message while formatting the log or return
  message; Exception has no attribute message in Python 3, so the handler
  itself raises AttributeError, which nothing catches inside the pass.
  The model therefore terminates such a pass with the outcome
  PassOutcome.exc "AttributeError".
* The merge loop mutates its input records through dict aliasing
  (merged_obj[URN] = p_res, then pop and item assignment).  The structured
  model mergeRecords tracks only the merged output; the dict-level model
  mergeDicts additionally tracks the final state of the input batch.
-/

namespace RouterNews

/-- Model of the Python str.startswith method: code-point prefix test. -/
def strStartsWith (s pre : String) : Bool :=
  pre.data.isPrefixOf s.data

/-- In-place insert into a Python-style dict rendered as an association
list: an existing key keeps its position and gets the new value, a fresh
key is appended at the end (Python dict assignment semantics). -/
def dinsert {α : Type} : List (String × α) → String → α → List (String × α)
  | [], k, v => [(k, v)]
  | (k', v') :: rest, k, v =>
      if k' = k then (k', v) :: rest else (k', v') :: dinsert rest k v

/-- One raw outage record as decoded from the legacy feed: the fields the
Warehouse_XSEDE_News code reads.  ID plays the role of SourceID. -/
structure RawRecord where
  ID : String
  OutageID : String
  ResourceID : String
  OutageType : String
  Subject : String
  Content : String
  OutageStart : String
  OutageEnd : String
deriving DecidableEq

/-- The merged_obj entry for one URN: the first-seen record of the group
with ResourceID popped and the AffectedInfrastructure list added. -/
structure MergedOutage where
  ID : String
  OutageID : String
  OutageType : String
  Subject : String
  Content : String
  OutageStart : String
  OutageEnd : String
  AffectedInfrastructure : List String
deriving DecidableEq

/-- First sighting of a URN: merged_obj[URN] = p_res with ResourceID popped
and an empty AffectedInfrastructure list. -/
def initMerged (p : RawRecord) : MergedOutage :=
  { ID := p.ID, OutageID := p.OutageID, OutageType := p.OutageType,
    Subject := p.Subject, Content := p.Content,
    OutageStart := p.OutageStart, OutageEnd := p.OutageEnd,
    AffectedInfrastructure := [] }

/-- merged_obj[URN].AffectedInfrastructure.append(RESOURCE): append one
resource to the entry stored under the given key. -/
def appendResource : List (String × MergedOutage) → String → String → List (String × MergedOutage)
  | [], _, _ => []
  | (k', v) :: rest, k, r =>
      if k' = k then
        (k', { v with AffectedInfrastructure := v.AffectedInfrastructure ++ [r] }) :: rest
      else (k', v) :: appendResource rest k r

/-- The merge loop of Warehouse_XSEDE_News (lines 293-304): skip records
whose ID does not start with INPUTURNPREFIX, group the rest by
URN = NEWSURNPREFIX ++ OutageID, first record of a group seeds the entry,
every record appends its ResourceID. -/
def mergeFold (ipre opre : String) :
    List (String × MergedOutage) → List RawRecord → List (String × MergedOutage)
  | m, [] => m
  | m, p :: rest =>
      if strStartsWith p.ID ipre then
        let URN := opre ++ p.OutageID
        let m1 := if (List.lookup URN m).isSome then m else m ++ [(URN, initMerged p)]
        mergeFold ipre opre (appendResource m1 URN p.ResourceID) rest
      else mergeFold ipre opre m rest

def mergeRecords (ipre opre : String) (batch : List RawRecord) :
    List (String × MergedOutage) :=
  mergeFold ipre opre [] batch

/-- The OutageType classification of lines 307-312. -/
def classifyOutageType (t : String) : String :=
  if t = "Reconfiguration" then "Reconfiguration"
  else if t = "Partial" then "Outage Partial"
  else "Outage Full"

/-- The WEBURL computed on every write (line 313). -/
def webURL (urn : String) : String :=
  "https://operations-api.access-ci.org/wh2/news/v1/id/" ++ urn ++ "/?format=html"

/-- One row of the News table.  NewsStart and NewsEnd keep the textual
timestamp handed to parse_datetime, which is external to this model. -/
structure NewsItem where
  URN : String
  Subject : String
  Content : String
  NewsStart : String
  NewsEnd : String
  NewsType : String
  DistributionOptions : Option String
  WebURL : String
  Affiliation : String
  Publisher : String
deriving DecidableEq

/-- One row of the News_Associations table; id is the auto-increment
primary key, NewsURN the URN of the owning News row. -/
structure NewsAssociation where
  id : Nat
  NewsURN : String
  AssociatedType : String
  AssociatedID : String
deriving DecidableEq

/-- KEY = URN -> type / id (line 341), identical to str of the row. -/
def assocKey (urn atype aid : String) : String :=
  urn ++ "->" ++ atype ++ "/" ++ aid

def rowKey (r : NewsAssociation) : String :=
  assocKey r.NewsURN r.AssociatedType r.AssociatedID

/-- The persisted state owned by the Django collaborator. -/
structure Store where
  news : List NewsItem
  assocs : List NewsAssociation
  nextId : Nat
deriving DecidableEq

/-- The configured run constants read in Setup. -/
structure Config where
  INPUTURNPREFIX : String
  NEWSURNPREFIX : String
  AFFILIATION : String
  PUBLISHER : String

/-- The STATS counter of Run: Update, Delete, Skip. -/
structure Stats where
  update : Nat
  delete : Nat
  skip : Nat
deriving DecidableEq

def Stats.zero : Stats := ⟨0, 0, 0⟩

/-- Oracle injecting DataError or IntegrityError at each persistence
call, keyed by the URN or KEY the call is made for. -/
structure FailSpec where
  upsertFail : String → Bool
  assocSaveFail : String → Bool
  assocDeleteFail : String → Bool
  newsDeleteFail : String → Bool

def noFail : FailSpec :=
  ⟨fun _ => false, fun _ => false, fun _ => false, fun _ => false⟩

/-- How one invocation of Warehouse_XSEDE_News ends: a normal return
value (rc, message), or an exception escaping the function. -/
inductive PassOutcome where
  | ret (ok : Bool) (msg : String)
  | exc (name : String)
deriving DecidableEq

/-- News.objects.update_or_create keyed by URN: full-field overwrite of
the existing row, or append of a new row. -/
def upsertNews (news : List NewsItem) (item : NewsItem) : List NewsItem :=
  if news.any (fun n => n.URN = item.URN) then
    news.map (fun n => if n.URN = item.URN then item else n)
  else news ++ [item]

/-- The News row written for one merged entry (lines 315-327). -/
def mkNewsItem (cfg : Config) (urn : String) (m : MergedOutage) : NewsItem :=
  { URN := urn, Subject := m.Subject, Content := m.Content,
    NewsStart := m.OutageStart, NewsEnd := m.OutageEnd,
    NewsType := classifyOutageType m.OutageType, DistributionOptions := none,
    WebURL := webURL urn, Affiliation := cfg.AFFILIATION,
    Publisher := cfg.PUBLISHER }

/-- In-flight state of the mutating half of the pass: the store plus the
new (observed) dicts and the stats counter. -/
structure LoopSt where
  store : Store
  newMap : List (String × NewsItem)
  newAssoc : List (String × NewsAssociation)
  stats : Stats

/-- Lines 337-355: one resource of one merged entry.  A KEY already in
cur_assoc is carried into new_assoc unchanged; otherwise a fresh row is
saved.  A DataError or IntegrityError on the save makes the except
handler evaluate e.message, raising AttributeError: the error branch
freezes the state at that point. -/
def stepResource (fail : FailSpec) (curAssoc : List (String × NewsAssociation))
    (urn : String) (s : LoopSt) (resource : String) : Except LoopSt LoopSt :=
  let KEY := assocKey urn "Resource" resource
  match List.lookup KEY curAssoc with
  | some row => .ok { s with newAssoc := dinsert s.newAssoc KEY row }
  | none =>
      if fail.assocSaveFail KEY then .error s
      else
        let row : NewsAssociation := ⟨s.store.nextId, urn, "Resource", resource⟩
        let st2 : Store :=
          { s.store with assocs := s.store.assocs ++ [row], nextId := s.store.nextId + 1 }
        .ok { s with store := st2, newAssoc := dinsert s.newAssoc KEY row }

/-- Lines 306-355: one merged entry.  Classify, upsert the News row,
record it in new, bump the Update stat, then process the resources. -/
def stepEntry (cfg : Config) (fail : FailSpec)
    (curAssoc : List (String × NewsAssociation)) (s : LoopSt)
    (e : String × MergedOutage) : Except LoopSt LoopSt :=
  if fail.upsertFail e.1 then .error s
  else
    let item := mkNewsItem cfg e.1 e.2
    let s1 : LoopSt :=
      { s with store := { s.store with news := upsertNews s.store.news item },
               newMap := dinsert s.newMap e.1 item,
               stats := { s.stats with update := s.stats.update + 1 } }
    e.2.AffectedInfrastructure.foldlM (stepResource fail curAssoc e.1) s1

/-- Lines 357-364: delete every association whose KEY is absent from
new_assoc, by primary key of the snapshot row.  A DataError or
IntegrityError again raises AttributeError out of the handler. -/
def deleteObsoleteAssocs (fail : FailSpec)
    (curAssoc newAssoc : List (String × NewsAssociation)) (st : Store) :
    Except Store Store :=
  curAssoc.foldlM (fun st2 kv =>
    if (List.lookup kv.1 newAssoc).isSome then .ok st2
    else if fail.assocDeleteFail kv.1 then .error st2
    else .ok { st2 with assocs := st2.assocs.filter (fun r => r.id ≠ kv.2.id) }) st

/-- Lines 366-374: delete every News row whose URN is absent from new,
bumping the Delete stat on success. -/
def deleteObsoleteNews (fail : FailSpec) (cur : List (String × NewsItem))
    (newMap : List (String × NewsItem)) (st : Store) (stats : Stats) :
    Except (Store × Stats) (Store × Stats) :=
  cur.foldlM (fun p kv =>
    if (List.lookup kv.1 newMap).isSome then .ok p
    else if fail.newsDeleteFail kv.1 then .error p
    else .ok ({ p.1 with news := p.1.news.filter (fun n => n.URN ≠ kv.1) },
              { p.2 with delete := p.2.delete + 1 })) (st, stats)

/-- Load of the namespace-scoped snapshot dicts (lines 281-290). -/
def buildNewsDict (items : List NewsItem) : List (String × NewsItem) :=
  items.foldl (fun d n => dinsert d n.URN n) []

def buildAssocDict (rows : List NewsAssociation) : List (String × NewsAssociation) :=
  rows.foldl (fun d r => dinsert d (rowKey r) r) []

/-- Warehouse_XSEDE_News (lines 280-375): snapshot, merge, upsert loop,
association diffing, deletion of obsolete associations and news rows.
Returns the outcome together with the final store and stats. -/
def runPass (cfg : Config) (fail : FailSpec) (st : Store)
    (input : List RawRecord) : PassOutcome × Store × Stats :=
  let cur := buildNewsDict (st.news.filter (fun n => strStartsWith n.URN cfg.NEWSURNPREFIX))
  let curAssoc := buildAssocDict
    (st.assocs.filter (fun r => strStartsWith r.NewsURN cfg.NEWSURNPREFIX))
  let merged := mergeRecords cfg.INPUTURNPREFIX cfg.NEWSURNPREFIX input
  match merged.foldlM (stepEntry cfg fail curAssoc) ⟨st, [], [], Stats.zero⟩ with
  | .error s => (.exc "AttributeError", s.store, s.stats)
  | .ok s =>
      match deleteObsoleteAssocs fail curAssoc s.newAssoc s.store with
      | .error st2 => (.exc "AttributeError", st2, s.stats)
      | .ok st2 =>
          match deleteObsoleteNews fail cur s.newMap st2 s.stats with
          | .error p => (.exc "AttributeError", p.1, p.2)
          | .ok p => (.ret true "", p.1, p.2)

/-- One cycle of Run with destination warehouse (lines 383-417): STATS is
reset, and the line if SOURCE_DATA: skips the whole reconciliation when
the fetched batch is empty (an empty Python list is falsy), leaving the
store untouched and reporting nothing.  The outcome is none in that
case. -/
def runCycle (cfg : Config) (fail : FailSpec) (st : Store)
    (sourceData : List RawRecord) : Store × Stats × Option PassOutcome :=
  if sourceData.isEmpty then (st, Stats.zero, none)
  else
    let r := runPass cfg fail st sourceData
    (r.2.1, r.2.2, some r.1)

/-- Store invariants maintained by the persistence layer: News URNs are
unique (URN is the upsert key), association primary keys are unique and
below the auto-increment counter, and the namespace-scoped association
keys are pairwise distinct. -/
def StoreWF (opre : String) (st : Store) : Prop :=
  (st.news.map (fun n => n.URN)).Nodup ∧
  (st.assocs.map (fun r => r.id)).Nodup ∧
  (∀ r ∈ st.assocs, r.id < st.nextId) ∧
  ((st.assocs.filter (fun r => strStartsWith r.NewsURN opre)).map rowKey).Nodup

/-- The postfix of the AffectedInfrastructure list contributed by a tail
of the batch (used to state the merge loop invariant). -/
def addResources (v : MergedOutage) (l : List String) : MergedOutage :=
  { v with AffectedInfrastructure := v.AffectedInfrastructure ++ l }

/-- Records of the batch that the merge loop groups under key u. -/
def groupOf (ipre opre : String) (batch : List RawRecord) (u : String) : List RawRecord :=
  batch.filter (fun r => strStartsWith r.ID ipre && (opre ++ r.OutageID == u))

/-- All (URN, ResourceID) pairs contributed by a list of merged entries,
in processing order, duplicates retained. -/
def entryPairs (entries : List (String × MergedOutage)) : List (String × String) :=
  entries.flatMap (fun e => e.2.AffectedInfrastructure.map (fun rr => (e.1, rr)))

/-- The association keys of those pairs (AssociationType is Resource). -/
def entryPairKeys (entries : List (String × MergedOutage)) : List String :=
  (entryPairs entries).map (fun p => assocKey p.1 "Resource" p.2)

/-- The association rows the resource loop of one merged entry saves when
no failure occurs: one fresh row (consecutive primary keys from nid) per
resource whose KEY is absent from the cur_assoc snapshot.  Characterizes
the store growth of stepResource; proof device. -/
def createdRows (curAssoc : List (String × NewsAssociation)) (urn : String) :
    Nat → List String → List NewsAssociation
  | _, [] => []
  | nid, rr :: rest =>
      if (List.lookup (assocKey urn "Resource" rr) curAssoc).isSome then
        createdRows curAssoc urn nid rest
      else ⟨nid, urn, "Resource", rr⟩ :: createdRows curAssoc urn (nid + 1) rest

/-! ### Dict-level model of the merge loop (tracks input mutation) -/

/-- A JSON value of the feed payload, as far as the merge loop needs. -/
inductive JVal where
  | str : String → JVal
  | arr : List String → JVal
deriving DecidableEq

/-- A decoded JSON object: an insertion-ordered Python dict. -/
abbrev JDict := List (String × JVal)

def jget (d : JDict) (k : String) : Option JVal := List.lookup k d

/-- p_res.pop(key, None): remove the key, keep the order of the rest. -/
def jpop (d : JDict) (k : String) : JDict := d.filter (fun kv => kv.1 ≠ k)

/-- Read a string field; feed records carry these fields as strings. -/
def jstr (d : JDict) (k : String) : String :=
  match jget d k with
  | some (JVal.str s) => s
  | _ => ""

/-- merged_obj[URN].AffectedInfrastructure.append(r) through the alias;
the entry always holds an array here, any other shape is unreachable and
left unchanged. -/
def appendAffected (r : String) (d : JDict) : JDict :=
  match jget d "AffectedInfrastructure" with
  | some (JVal.arr l) => dinsert d "AffectedInfrastructure" (JVal.arr (l ++ [r]))
  | _ => d

/-- One iteration of the merge loop over the record at index i, acting on
the mutable batch (the cells) and the merged_obj key-to-index map: the
value merged_obj stores for a URN is the aliased record cell itself. -/
def mergeDictStep (ipre opre : String) (st : List JDict × List (String × Nat)) (i : Nat) :
    List JDict × List (String × Nat) :=
  let cells := st.1
  let merged := st.2
  let p := cells.getD i []
  if strStartsWith (jstr p "ID") ipre then
    let URN := opre ++ jstr p "OutageID"
    let RESOURCE := jstr p "ResourceID"
    match List.lookup URN merged with
    | some j => (cells.set j (appendAffected RESOURCE (cells.getD j [])), merged)
    | none =>
        let p1 := dinsert (jpop p "ResourceID") "AffectedInfrastructure" (JVal.arr [])
        let cells1 := cells.set i p1
        (cells1.set i (appendAffected RESOURCE (cells1.getD i [])), merged ++ [(URN, i)])
  else st

/-- The merge loop of lines 293-304 at the dict level: returns the final
state of the input batch (mutated through dict aliasing) together with
the merged_obj map from URN to the index of its merged record. -/
def mergeDicts (ipre opre : String) (input : List JDict) : List JDict × List (String × Nat) :=
  (List.range input.length).foldl (mergeDictStep ipre opre) (input, [])

/-- The merge loop stopped after the first t records (proof device for
the loop invariant; mergeDicts is the case t = input.length). -/
def mergeDictsUpTo (ipre opre : String) (input : List JDict) (t : Nat) :
    List JDict × List (String × Nat) :=
  (List.range t).foldl (mergeDictStep ipre opre) (input, [])

def matchesAt (ipre : String) (input : List JDict) (i : Nat) : Bool :=
  strStartsWith (jstr (input.getD i []) "ID") ipre

def urnAt (opre : String) (input : List JDict) (i : Nat) : String :=
  opre ++ jstr (input.getD i []) "OutageID"

/-- Index i holds the first prefix-matching record of its URN group. -/
def firstOfGroup (ipre opre : String) (input : List JDict) (i : Nat) : Prop :=
  matchesAt ipre input i = true ∧
  ∀ j, j < i → matchesAt ipre input j = true → urnAt opre input j ≠ urnAt opre input i

/-! ### Concrete inputs used by witnesses and counterexamples -/

def wCfg : Config := ⟨"x:", "n:", "Aff", "Pub"⟩

def wRec1 : RawRecord := ⟨"x:1", "A", "r1", "Partial", "S", "C", "t1", "t2"⟩
def wRec2 : RawRecord := ⟨"x:1", "A", "r2", "Partial", "ignored", "C", "t1", "t2"⟩
def wRecB : RawRecord := ⟨"x:2", "B", "rb", "Full", "SB", "CB", "t1", "t2"⟩
def wRecDup : RawRecord := ⟨"x:3", "A", "r1", "Full", "T", "C", "t1", "t2"⟩
def wRecOther : RawRecord := ⟨"acc:9", "Z", "rz", "Full", "X", "C", "t1", "t2"⟩

def wEmptyStore : Store := ⟨[], [], 0⟩

def wNews : NewsItem :=
  ⟨"n:A", "S", "C", "t1", "t2", "Outage Partial", none, webURL "n:A", "Aff", "Pub"⟩
def wRow1 : NewsAssociation := ⟨0, "n:A", "Resource", "r1"⟩
def wRow2 : NewsAssociation := ⟨1, "n:A", "Resource", "r2"⟩

/-- The store produced by the first pass of the section 8 example. -/
def wStore : Store := ⟨[wNews], [wRow1, wRow2], 2⟩

def wFailUpsertB : FailSpec :=
  ⟨fun u => u == "n:B", fun _ => false, fun _ => false, fun _ => false⟩

def wFailDelAssoc : FailSpec :=
  ⟨fun _ => false, fun _ => false, fun k => k == "n:A->Resource/r1", fun _ => false⟩

def wDictRec : JDict :=
  [("ID", JVal.str "x:1"), ("OutageID", JVal.str "A"), ("ResourceID", JVal.str "r1"),
   ("OutageType", JVal.str "Partial"), ("Subject", JVal.str "S")]

/-! ### Lemmas: strings, association lists, merge -/

theorem strStartsWith_append (pre s : String) : strStartsWith (pre ++ s) pre = true := by
  simp [strStartsWith, String.data_append, List.isPrefixOf_iff_prefix]

theorem string_append_left_injective (pre : String) :
    Function.Injective (fun s => pre ++ s) := by
  intro a b h
  have hd : (pre ++ a).data = (pre ++ b).data := congrArg String.data h
  rw [String.data_append, String.data_append] at hd
  have h2 := List.append_cancel_left hd
  cases a with
  | mk da =>
      cases b with
      | mk db => exact congrArg String.mk h2

theorem lookup_dinsert {α : Type} (d : List (String × α)) (k k' : String) (v : α) :
    List.lookup k (dinsert d k' v) = if k' = k then some v else List.lookup k d := by
  induction d with
  | nil =>
      by_cases h : k' = k
      · subst h; simp [dinsert, List.lookup]
      · have hb : (k == k') = false := beq_eq_false_iff_ne.mpr (fun h2 => h h2.symm)
        simp [dinsert, List.lookup, hb, h]
  | cons hd tl ih =>
      obtain ⟨k0, v0⟩ := hd
      by_cases h0 : k0 = k'
      · subst h0
        by_cases h1 : k0 = k
        · subst h1; simp [dinsert, List.lookup]
        · have hb : (k == k0) = false := beq_eq_false_iff_ne.mpr (fun h2 => h1 h2.symm)
          simp [dinsert, List.lookup, hb, h1]
      · by_cases h1 : k0 = k
        · subst h1
          have h2 : ¬ k' = k0 := fun h => h0 h.symm
          simp [dinsert, List.lookup, h0, h2]
        · have hb : (k == k0) = false := beq_eq_false_iff_ne.mpr (fun h2 => h1 h2.symm)
          simp [dinsert, List.lookup, h0, hb, ih]

theorem keys_dinsert {α : Type} (d : List (String × α)) (k : String) (v : α) :
    (dinsert d k v).map Prod.fst = if k ∈ d.map Prod.fst then d.map Prod.fst
      else d.map Prod.fst ++ [k] := by
  induction d with
  | nil => simp [dinsert]
  | cons hd tl ih =>
      obtain ⟨k0, v0⟩ := hd
      by_cases h0 : k0 = k
      · subst h0; simp [dinsert]
      · have h1 : ¬ k = k0 := fun h => h0 h.symm
        by_cases hm : k ∈ tl.map Prod.fst
        · simp [dinsert, h0, h1, hm, ih]
        · simp [dinsert, h0, h1, hm, ih]

theorem lookup_isSome_iff_mem_keys {α : Type} (d : List (String × α)) (k : String) :
    (List.lookup k d).isSome = true ↔ k ∈ d.map Prod.fst := by
  induction d with
  | nil => simp [List.lookup]
  | cons hd tl ih =>
      obtain ⟨k0, v0⟩ := hd
      by_cases h0 : k = k0
      · subst h0; simp [List.lookup]
      · have hb : (k == k0) = false := beq_eq_false_iff_ne.mpr h0
        simp [List.lookup, hb, ih, h0]

theorem lookup_mem {α : Type} {d : List (String × α)} {k : String} {v : α}
    (h : List.lookup k d = some v) : (k, v) ∈ d := by
  induction d with
  | nil => simp [List.lookup] at h
  | cons hd tl ih =>
      obtain ⟨k0, v0⟩ := hd
      by_cases h0 : k = k0
      · subst h0
        simp [List.lookup] at h
        subst h
        exact List.mem_cons_self _ _
      · have hb : (k == k0) = false := beq_eq_false_iff_ne.mpr h0
        simp [List.lookup, hb] at h
        exact List.mem_cons_of_mem _ (ih h)

theorem lookup_append {α : Type} (l1 l2 : List (String × α)) (k : String) :
    List.lookup k (l1 ++ l2) = (List.lookup k l1).or (List.lookup k l2) := by
  induction l1 with
  | nil => simp [List.lookup]
  | cons hd tl ih =>
      obtain ⟨k0, v0⟩ := hd
      by_cases h0 : k = k0
      · subst h0; simp [List.lookup]
      · have hb : (k == k0) = false := beq_eq_false_iff_ne.mpr h0
        simp [List.lookup, hb, ih]

theorem lookup_singleton_ne {α : Type} (k k' : String) (v : α) (h : k ≠ k') :
    List.lookup k [(k', v)] = none := by
  have hb : (k == k') = false := beq_eq_false_iff_ne.mpr h
  simp [List.lookup, hb]

theorem lookup_singleton_self {α : Type} (k : String) (v : α) :
    List.lookup k [(k, v)] = some v := by
  simp [List.lookup]

theorem addResources_nil (v : MergedOutage) : addResources v [] = v := by
  cases v; simp [addResources]

theorem addResources_append (v : MergedOutage) (l1 l2 : List String) :
    addResources (addResources v l1) l2 = addResources v (l1 ++ l2) := by
  cases v; simp [addResources]

theorem keys_appendResource (m : List (String × MergedOutage)) (k r : String) :
    (appendResource m k r).map Prod.fst = m.map Prod.fst := by
  induction m with
  | nil => rfl
  | cons hd tl ih =>
      obtain ⟨k0, v0⟩ := hd
      by_cases h0 : k0 = k <;> simp [appendResource, h0, ih]

theorem lookup_appendResource (m : List (String × MergedOutage)) (k r u : String) :
    List.lookup u (appendResource m k r) =
      if k = u then (List.lookup u m).map (fun v => addResources v [r])
      else List.lookup u m := by
  induction m with
  | nil => by_cases h : k = u <;> simp [appendResource, List.lookup, h]
  | cons hd tl ih =>
      obtain ⟨k0, v0⟩ := hd
      by_cases h0 : k0 = k
      · subst h0
        by_cases h1 : u = k0
        · subst h1; simp [appendResource, List.lookup, addResources]
        · have hb : (u == k0) = false := beq_eq_false_iff_ne.mpr h1
          have h2 : ¬ k0 = u := fun h => h1 h.symm
          simp [appendResource, List.lookup, hb, h2]
      · by_cases h1 : u = k0
        · subst h1
          have h2 : ¬ k = u := fun h => h0 h.symm
          simp [appendResource, List.lookup, h0, h2]
        · have hb : (u == k0) = false := beq_eq_false_iff_ne.mpr h1
          simp [appendResource, List.lookup, h0, hb, ih]

theorem mergeFold_filter (ipre opre : String) (batch : List RawRecord) :
    ∀ acc, mergeFold ipre opre acc (batch.filter (fun r => strStartsWith r.ID ipre)) =
      mergeFold ipre opre acc batch := by
  induction batch with
  | nil => intro acc; rfl
  | cons p rest ih =>
      intro acc
      by_cases h : strStartsWith p.ID ipre = true
      · simp [List.filter_cons, h, mergeFold, ih]
      · have h2 : strStartsWith p.ID ipre = false := by
          cases hx : strStartsWith p.ID ipre
          · rfl
          · exact absurd hx h
        simp [List.filter_cons, h2, mergeFold, ih]

theorem list_toFinset_map {α β : Type} [DecidableEq α] [DecidableEq β]
    (l : List α) (f : α → β) : (l.map f).toFinset = l.toFinset.image f := by
  induction l with
  | nil => simp
  | cons a l ih => simp [ih]

theorem mergeFold_keys_toFinset (ipre opre : String) (batch : List RawRecord) :
    ∀ acc, ((mergeFold ipre opre acc batch).map Prod.fst).toFinset =
      (acc.map Prod.fst).toFinset ∪
        ((batch.filter (fun r => strStartsWith r.ID ipre)).map
          (fun r => opre ++ r.OutageID)).toFinset := by
  induction batch with
  | nil => intro acc; simp [mergeFold]
  | cons p rest ih =>
      intro acc
      by_cases h : strStartsWith p.ID ipre = true
      · rw [show mergeFold ipre opre acc (p :: rest) =
          mergeFold ipre opre
            (appendResource
              (if (List.lookup (opre ++ p.OutageID) acc).isSome then acc
               else acc ++ [(opre ++ p.OutageID, initMerged p)])
              (opre ++ p.OutageID) p.ResourceID) rest from by simp [mergeFold, h]]
        rw [ih]
        rw [keys_appendResource]
        by_cases hl : (List.lookup (opre ++ p.OutageID) acc).isSome = true
        · have hmem : (opre ++ p.OutageID) ∈ acc.map Prod.fst :=
            (lookup_isSome_iff_mem_keys acc _).mp hl
          simp only [hl, if_true]
          ext x
          simp only [List.filter_cons, h, if_true, List.map_cons, List.toFinset_cons,
            Finset.mem_union, List.mem_toFinset, Finset.mem_insert]
          constructor
          · rintro (hx | hx)
            · exact Or.inl hx
            · exact Or.inr (Or.inr hx)
          · rintro (hx | rfl | hx)
            · exact Or.inl hx
            · exact Or.inl hmem
            · exact Or.inr hx
        · have hl2 : (List.lookup (opre ++ p.OutageID) acc).isSome = false := by
            cases hx : (List.lookup (opre ++ p.OutageID) acc).isSome
            · rfl
            · exact absurd hx hl
          simp only [hl2, Bool.false_eq_true, if_false]
          ext x
          simp only [List.filter_cons, h, if_true, List.map_append, List.map_cons,
            List.map_nil, List.toFinset_append, List.toFinset_cons, List.toFinset_nil,
            Finset.mem_union, List.mem_toFinset, Finset.mem_insert,
            Finset.not_mem_empty, or_false]
          tauto
      · have h2 : strStartsWith p.ID ipre = false := by
          cases hx : strStartsWith p.ID ipre
          · rfl
          · exact absurd hx h
        simp [mergeFold, h2, ih, List.filter_cons]

theorem mergeFold_keys_nodup (ipre opre : String) (batch : List RawRecord) :
    ∀ acc, (acc.map Prod.fst).Nodup →
      ((mergeFold ipre opre acc batch).map Prod.fst).Nodup := by
  induction batch with
  | nil => intro acc hacc; exact hacc
  | cons p rest ih =>
      intro acc hacc
      by_cases h : strStartsWith p.ID ipre = true
      · rw [show mergeFold ipre opre acc (p :: rest) =
          mergeFold ipre opre
            (appendResource
              (if (List.lookup (opre ++ p.OutageID) acc).isSome then acc
               else acc ++ [(opre ++ p.OutageID, initMerged p)])
              (opre ++ p.OutageID) p.ResourceID) rest from by simp [mergeFold, h]]
        apply ih
        rw [keys_appendResource]
        by_cases hl : (List.lookup (opre ++ p.OutageID) acc).isSome = true
        · simpa [hl] using hacc
        · have hl2 : (List.lookup (opre ++ p.OutageID) acc).isSome = false := by
            cases hx : (List.lookup (opre ++ p.OutageID) acc).isSome
            · rfl
            · exact absurd hx hl
          have hnm : (opre ++ p.OutageID) ∉ acc.map Prod.fst := by
            intro hmem
            rw [← lookup_isSome_iff_mem_keys] at hmem
            rw [hmem] at hl2
            exact Bool.true_eq_false.mp hl2
          simp [hl2, List.nodup_append, hacc, hnm]
      · have h2 : strStartsWith p.ID ipre = false := by
          cases hx : strStartsWith p.ID ipre
          · rfl
          · exact absurd hx h
        rw [show mergeFold ipre opre acc (p :: rest) = mergeFold ipre opre acc rest from by
          simp [mergeFold, h2]]
        exact ih acc hacc

theorem mergeFold_lookup (ipre opre : String) (batch : List RawRecord) :
    ∀ acc u, List.lookup u (mergeFold ipre opre acc batch) =
      match List.lookup u acc with
      | some v => some (addResources v
          ((groupOf ipre opre batch u).map (fun r => r.ResourceID)))
      | none => (groupOf ipre opre batch u).head?.map (fun r =>
          addResources (initMerged r)
            ((groupOf ipre opre batch u).map (fun q => q.ResourceID))) := by
  induction batch with
  | nil =>
      intro acc u
      cases h : List.lookup u acc <;> simp [mergeFold, groupOf, h, addResources_nil]
  | cons p rest ih =>
      intro acc u
      by_cases h : strStartsWith p.ID ipre = true
      · by_cases hu : opre ++ p.OutageID = u
        · have hgroup : groupOf ipre opre (p :: rest) u = p :: groupOf ipre opre rest u := by
            simp [groupOf, List.filter_cons, h, hu]
          rw [show mergeFold ipre opre acc (p :: rest) =
            mergeFold ipre opre
              (appendResource
                (if (List.lookup (opre ++ p.OutageID) acc).isSome then acc
                 else acc ++ [(opre ++ p.OutageID, initMerged p)])
                (opre ++ p.OutageID) p.ResourceID) rest from by simp [mergeFold, h]]
          rw [ih]
          rw [lookup_appendResource, if_pos hu]
          cases hl : List.lookup u acc with
          | some w =>
              have hl2 : (List.lookup (opre ++ p.OutageID) acc).isSome = true := by
                rw [hu, hl]; rfl
              rw [hl2]
              simp only [if_true, hl, Option.map_some]
              rw [hgroup]
              simp [addResources_append]
          | none =>
              have hl2 : (List.lookup (opre ++ p.OutageID) acc).isSome = false := by
                rw [hu, hl]; rfl
              rw [hl2]
              simp only [Bool.false_eq_true, if_false]
              rw [lookup_append, hl]
              have : List.lookup u [(opre ++ p.OutageID, initMerged p)] = some (initMerged p) := by
                simp [List.lookup, hu, beq_iff_eq]
              rw [this]
              simp only [Option.or_none, Option.none_or, Option.map_some]
              rw [hgroup]
              simp [addResources_append, List.head?]
        · have hgroup : groupOf ipre opre (p :: rest) u = groupOf ipre opre rest u := by
            have hb : (opre ++ p.OutageID == u) = false := beq_eq_false_iff_ne.mpr hu
            simp [groupOf, List.filter_cons, h, hb]
          rw [show mergeFold ipre opre acc (p :: rest) =
            mergeFold ipre opre
              (appendResource
                (if (List.lookup (opre ++ p.OutageID) acc).isSome then acc
                 else acc ++ [(opre ++ p.OutageID, initMerged p)])
                (opre ++ p.OutageID) p.ResourceID) rest from by simp [mergeFold, h]]
          rw [ih]
          rw [lookup_appendResource, if_neg hu]
          by_cases hl : (List.lookup (opre ++ p.OutageID) acc).isSome = true
          · rw [hl]
            simp only [if_true]
            rw [hgroup]
          · have hl2 : (List.lookup (opre ++ p.OutageID) acc).isSome = false := by
              cases hx : (List.lookup (opre ++ p.OutageID) acc).isSome
              · rfl
              · exact absurd hx hl
            rw [hl2]
            simp only [Bool.false_eq_true, if_false]
            rw [lookup_append]
            have : List.lookup u [(opre ++ p.OutageID, initMerged p)] = none := by
              have hb : (u == opre ++ p.OutageID) = false :=
                beq_eq_false_iff_ne.mpr (fun hx => hu hx.symm)
              simp [List.lookup, hb]
            rw [this, hgroup]
            cases List.lookup u acc <;> simp
      · have h2 : strStartsWith p.ID ipre = false := by
          cases hx : strStartsWith p.ID ipre
          · rfl
          · exact absurd hx h
        have hgroup : groupOf ipre opre (p :: rest) u = groupOf ipre opre rest u := by
          simp [groupOf, List.filter_cons, h2]
        rw [show mergeFold ipre opre acc (p :: rest) = mergeFold ipre opre acc rest from by
          simp [mergeFold, h2]]
        rw [ih, hgroup]

theorem beq_append_left (pre a b : String) : (pre ++ a == pre ++ b) = (a == b) := by
  by_cases h : a = b
  · subst h; simp
  · have h2 : ¬ pre ++ a = pre ++ b := fun hx => h (string_append_left_injective pre hx)
    rw [beq_eq_false_iff_ne.mpr h2, beq_eq_false_iff_ne.mpr h]

theorem head?_filter {α : Type} (p : α → Bool) (l : List α) :
    (l.filter p).head? = l.find? p := by
  induction l with
  | nil => rfl
  | cons a l ih =>
      by_cases h : p a = true
      · simp [List.filter_cons, List.find?, h]
      · have h2 : p a = false := by
          cases hx : p a
          · rfl
          · exact absurd hx h
        simp [List.filter_cons, List.find?, h2, ih]

theorem groupOf_eq_filter_outageID (ipre opre : String) (batch : List RawRecord) (oid : String) :
    groupOf ipre opre batch (opre ++ oid) =
      batch.filter (fun r => strStartsWith r.ID ipre && (r.OutageID == oid)) := by
  apply List.filter_congr
  intro r _
  rw [beq_append_left]

theorem mergeRecords_lookup (ipre opre : String) (batch : List RawRecord) (u : String) :
    List.lookup u (mergeRecords ipre opre batch) =
      (groupOf ipre opre batch u).head?.map (fun r =>
        addResources (initMerged r)
          ((groupOf ipre opre batch u).map (fun q => q.ResourceID))) := by
  have h := mergeFold_lookup ipre opre batch [] u
  simpa [mergeRecords, List.lookup] using h

/-! ### Claim theorems about the merge engine -/

/-- C6: for every input batch, the number of MergedOutage entries equals
the number of distinct OutageID values among prefix-matching records, and
records with a non-matching SourceID prefix contribute nothing: merging
the batch and merging its prefix-filtered part coincide. -/
theorem merge_grouping_count (ipre opre : String) (batch : List RawRecord) :
    (mergeRecords ipre opre batch).length =
      ((batch.filter (fun r => strStartsWith r.ID ipre)).map
        (fun r => r.OutageID)).dedup.length ∧
    mergeRecords ipre opre batch =
      mergeRecords ipre opre (batch.filter (fun r => strStartsWith r.ID ipre)) := by
  constructor
  · have hnd : ((mergeRecords ipre opre batch).map Prod.fst).Nodup :=
      mergeFold_keys_nodup ipre opre batch [] (by simp)
    have h1 : (mergeRecords ipre opre batch).length =
        ((mergeRecords ipre opre batch).map Prod.fst).length := (List.length_map _ _).symm
    rw [h1, ← List.toFinset_card_of_nodup hnd]
    have h2 : ((mergeRecords ipre opre batch).map Prod.fst).toFinset =
        ((batch.filter (fun r => strStartsWith r.ID ipre)).map
          (fun r => opre ++ r.OutageID)).toFinset := by
      have h3 := mergeFold_keys_toFinset ipre opre batch []
      simpa [mergeRecords] using h3
    rw [h2]
    have h4 : (batch.filter (fun r => strStartsWith r.ID ipre)).map
        (fun r => opre ++ r.OutageID) =
        ((batch.filter (fun r => strStartsWith r.ID ipre)).map
          (fun r => r.OutageID)).map (fun s => opre ++ s) := by
      rw [List.map_map]
      rfl
    rw [h4, list_toFinset_map,
      Finset.card_image_of_injective _ (string_append_left_injective opre),
      List.card_toFinset]
  · unfold mergeRecords
    exact (mergeFold_filter ipre opre batch []).symm

/-- C7: when two records share an OutageID, the merged entry keeps the
scalar fields of the record that occurs first in batch order among the
prefix-matching records of the group; later records never override. -/
theorem merge_first_seen_wins (ipre opre oid : String) (batch : List RawRecord)
    (r0 : RawRecord)
    (h : batch.find? (fun r => strStartsWith r.ID ipre && (r.OutageID == oid)) = some r0) :
    ∃ m, List.lookup (opre ++ oid) (mergeRecords ipre opre batch) = some m ∧
      m.Subject = r0.Subject ∧ m.Content = r0.Content ∧
      m.OutageType = r0.OutageType ∧ m.OutageStart = r0.OutageStart ∧
      m.OutageEnd = r0.OutageEnd := by
  have hl := mergeRecords_lookup ipre opre batch (opre ++ oid)
  rw [groupOf_eq_filter_outageID, head?_filter, h] at hl
  refine ⟨_, hl, ?_, ?_, ?_, ?_, ?_⟩ <;> simp [addResources, initMerged]

/-- Witness for C7 on the section 8 example: the group of OutageID A has
wRec1 first, and the merged entry carries its Subject S (not the Subject
of wRec2). -/
theorem merge_first_seen_wins_witness :
    ([wRec1, wRec2].find?
      (fun r => strStartsWith r.ID "x:" && (r.OutageID == "A")) = some wRec1) ∧
    ∃ m, List.lookup ("n:" ++ "A") (mergeRecords "x:" "n:" [wRec1, wRec2]) = some m ∧
      m.Subject = wRec1.Subject ∧ m.Content = wRec1.Content ∧
      m.OutageType = wRec1.OutageType ∧ m.OutageStart = wRec1.OutageStart ∧
      m.OutageEnd = wRec1.OutageEnd :=
  ⟨by decide, merge_first_seen_wins "x:" "n:" "A" [wRec1, wRec2] wRec1 (by decide)⟩

/-- C8: the AffectedResources list of a merged entry is exactly the
ResourceID values of the prefix-matching records of its group, in
encounter order, duplicates retained; in particular its length is the
number of such records. -/
theorem merge_resource_accumulation (ipre opre oid : String) (batch : List RawRecord)
    (m : MergedOutage)
    (h : List.lookup (opre ++ oid) (mergeRecords ipre opre batch) = some m) :
    m.AffectedInfrastructure =
      (batch.filter (fun r => strStartsWith r.ID ipre && (r.OutageID == oid))).map
        (fun r => r.ResourceID) ∧
    m.AffectedInfrastructure.length =
      (batch.filter (fun r => strStartsWith r.ID ipre && (r.OutageID == oid))).length := by
  have hl := mergeRecords_lookup ipre opre batch (opre ++ oid)
  rw [groupOf_eq_filter_outageID] at hl
  rw [h] at hl
  cases hh : (batch.filter
      (fun r => strStartsWith r.ID ipre && (r.OutageID == oid))).head? with
  | none =>
      rw [hh] at hl
      exact Option.noConfusion hl
  | some r =>
      rw [hh] at hl
      rw [show ((some r).map (fun q => addResources (initMerged q)
          ((batch.filter (fun x => strStartsWith x.ID ipre && (x.OutageID == oid))).map
            (fun q2 => q2.ResourceID)))) = some (addResources (initMerged r)
          ((batch.filter (fun x => strStartsWith x.ID ipre && (x.OutageID == oid))).map
            (fun q2 => q2.ResourceID))) from rfl] at hl
      have hm : m = addResources (initMerged r)
          ((batch.filter (fun r => strStartsWith r.ID ipre && (r.OutageID == oid))).map
            (fun q => q.ResourceID)) := by
        exact Option.some.inj hl
      subst hm
      constructor
      · simp [addResources, initMerged]
      · simp [addResources, initMerged]

/-- Witness for C8 on the section 8 example: resources r1 and r2 in
encounter order. -/
theorem merge_resource_accumulation_witness :
    (List.lookup ("n:" ++ "A") (mergeRecords "x:" "n:" [wRec1, wRec2]) =
      some (addResources (initMerged wRec1) ["r1", "r2"])) ∧
    ((addResources (initMerged wRec1) ["r1", "r2"]).AffectedInfrastructure =
      ([wRec1, wRec2].filter
        (fun r => strStartsWith r.ID "x:" && (r.OutageID == "A"))).map
          (fun r => r.ResourceID) ∧
     (addResources (initMerged wRec1) ["r1", "r2"]).AffectedInfrastructure.length =
      ([wRec1, wRec2].filter
        (fun r => strStartsWith r.ID "x:" && (r.OutageID == "A"))).length) :=
  ⟨by decide, merge_resource_accumulation "x:" "n:" "A" [wRec1, wRec2] _ (by decide)⟩

/-- C9: the outage kind classification maps Reconfiguration to
Reconfiguration, Partial to Outage Partial, and every other value to
Outage Full; it is total, so no kind is dropped or fails. -/
theorem classify_kind_cases :
    classifyOutageType "Reconfiguration" = "Reconfiguration" ∧
    classifyOutageType "Partial" = "Outage Partial" ∧
    ∀ k : String, k ≠ "Reconfiguration" → k ≠ "Partial" →
      classifyOutageType k = "Outage Full" := by
  refine ⟨rfl, rfl, ?_⟩
  intro k h1 h2
  simp [classifyOutageType, h1, h2]

/-! ### Lemmas for the dict-level merge model -/

theorem jdict_getD_set_self (l : List JDict) (i : Nat) (a : JDict) (h : i < l.length) :
    (l.set i a).getD i [] = a := by
  simp [List.getD, List.getElem?_set_self, h]

theorem jdict_getD_set_ne (l : List JDict) (i j : Nat) (a : JDict) (h : i ≠ j) :
    (l.set i a).getD j [] = l.getD j [] := by
  simp [List.getD, List.getElem?_set_ne, h]

theorem dinsert_dinsert {α : Type} (d : List (String × α)) (k : String) (v w : α) :
    dinsert (dinsert d k v) k w = dinsert d k w := by
  induction d with
  | nil => simp [dinsert]
  | cons hd tl ih =>
      obtain ⟨k0, v0⟩ := hd
      by_cases h0 : k0 = k
      · simp [dinsert, h0]
      · simp [dinsert, h0, ih]

theorem appendAffected_dinsert (X : JDict) (l : List String) (r : String) :
    appendAffected r (dinsert X "AffectedInfrastructure" (JVal.arr l)) =
      dinsert X "AffectedInfrastructure" (JVal.arr (l ++ [r])) := by
  unfold appendAffected jget
  rw [lookup_dinsert]
  simp [dinsert_dinsert]

theorem mergeDictsUpTo_succ (ipre opre : String) (input : List JDict) (t : Nat) :
    mergeDictsUpTo ipre opre input (t + 1) =
      mergeDictStep ipre opre (mergeDictsUpTo ipre opre input t) t := by
  unfold mergeDictsUpTo
  rw [List.range_succ, List.foldl_append]
  rfl

/-- The loop invariant of the dict-level merge: length preserved, cells
past the cursor untouched, non-first cells untouched, first-of-group
cells rewritten to the popped and extended form, and the merged_obj map
points exactly at the first-of-group indices already passed. -/
theorem mergeDictsUpTo_invariant (ipre opre : String) (input : List JDict) :
    ∀ t, t ≤ input.length →
      (mergeDictsUpTo ipre opre input t).1.length = input.length ∧
      (∀ i, t ≤ i →
        (mergeDictsUpTo ipre opre input t).1.getD i [] = input.getD i []) ∧
      (∀ i, i < t → ¬ firstOfGroup ipre opre input i →
        (mergeDictsUpTo ipre opre input t).1.getD i [] = input.getD i []) ∧
      (∀ i, i < t → firstOfGroup ipre opre input i →
        ∃ l, (mergeDictsUpTo ipre opre input t).1.getD i [] =
          dinsert (jpop (input.getD i []) "ResourceID") "AffectedInfrastructure"
            (JVal.arr l)) ∧
      (∀ u j, List.lookup u (mergeDictsUpTo ipre opre input t).2 = some j →
        j < t ∧ matchesAt ipre input j = true ∧ urnAt opre input j = u ∧
        firstOfGroup ipre opre input j) ∧
      (∀ i, i < t → matchesAt ipre input i = true →
        (List.lookup (urnAt opre input i)
          (mergeDictsUpTo ipre opre input t).2).isSome = true) := by
  intro t
  induction t with
  | zero =>
      intro _
      refine ⟨rfl, fun i _ => rfl, fun i hi => absurd hi (Nat.not_lt_zero i),
        fun i hi => absurd hi (Nat.not_lt_zero i), ?_, fun i hi => absurd hi (Nat.not_lt_zero i)⟩
      intro u j hj
      simp [mergeDictsUpTo, List.lookup] at hj
  | succ t ih =>
      intro ht
      have htl : t < input.length := ht
      obtain ⟨ih1, ih2, ih3, ih4, ih5, ih6⟩ := ih (Nat.le_of_succ_le ht)
      have hp : (mergeDictsUpTo ipre opre input t).1.getD t [] = input.getD t [] :=
        ih2 t (Nat.le_refl t)
      by_cases hm : matchesAt ipre input t = true
      · cases hlook : List.lookup (opre ++ jstr (input.getD t []) "OutageID")
            (mergeDictsUpTo ipre opre input t).2 with
        | some j =>
            have hjprops : j < t ∧ matchesAt ipre input j = true ∧
                urnAt opre input j = urnAt opre input t ∧
                firstOfGroup ipre opre input j := ih5 _ j hlook
            have hstep : mergeDictsUpTo ipre opre input (t + 1) =
                ((mergeDictsUpTo ipre opre input t).1.set j
                  (appendAffected (jstr (input.getD t []) "ResourceID")
                    ((mergeDictsUpTo ipre opre input t).1.getD j [])),
                 (mergeDictsUpTo ipre opre input t).2) := by
              rw [mergeDictsUpTo_succ]
              unfold mergeDictStep
              have hc : strStartsWith (jstr (input.getD t []) "ID") ipre = true := hm
              simp only [hp, hc, if_true, hlook]
            have hjt : j ≠ t := Nat.ne_of_lt hjprops.1
            refine ⟨?_, ?_, ?_, ?_, ?_, ?_⟩
            · rw [hstep]; simp [ih1]
            · intro i hi
              rw [hstep]
              have hji : j ≠ i := Nat.ne_of_lt (Nat.lt_of_lt_of_le hjprops.1
                (Nat.le_trans (Nat.le_succ t) hi))
              rw [jdict_getD_set_ne _ _ _ _ hji]
              exact ih2 i (Nat.le_of_succ_le hi)
            · intro i hi hnf
              rw [hstep]
              by_cases hij : j = i
              · subst hij
                exact absurd hjprops.2.2.2 hnf
              · rw [jdict_getD_set_ne _ _ _ _ hij]
                rcases Nat.lt_succ_iff_lt_or_eq.mp hi with hi2 | hi2
                · exact ih3 i hi2 hnf
                · subst hi2; exact hp
            · intro i hi hf
              rw [hstep]
              by_cases hij : j = i
              · subst hij
                obtain ⟨l, hl⟩ := ih4 j hjprops.1 hjprops.2.2.2
                refine ⟨l ++ [jstr (input.getD t []) "ResourceID"], ?_⟩
                rw [jdict_getD_set_self _ _ _ (by rw [ih1]; exact Nat.lt_of_lt_of_le hjprops.1 (Nat.le_of_lt ht))]
                rw [hl, appendAffected_dinsert]
              · rw [jdict_getD_set_ne _ _ _ _ hij]
                rcases Nat.lt_succ_iff_lt_or_eq.mp hi with hi2 | hi2
                · exact ih4 i hi2 hf
                · subst hi2
                  exfalso
                  exact hf.2 j hjprops.1 hjprops.2.1 hjprops.2.2.1
            · intro u j2 hj2
              rw [hstep] at hj2
              obtain ⟨ha, hb, hc2, hd⟩ := ih5 u j2 hj2
              exact ⟨Nat.lt_succ_of_lt ha, hb, hc2, hd⟩
            · intro i hi hmi
              rw [hstep]
              rcases Nat.lt_succ_iff_lt_or_eq.mp hi with hi2 | hi2
              · exact ih6 i hi2 hmi
              · subst hi2
                have : List.lookup (urnAt opre input i)
                    (mergeDictsUpTo ipre opre input i).2 = some j := hlook
                rw [this]
                rfl
        | none =>
            have hfirst : firstOfGroup ipre opre input t := by
              refine ⟨hm, ?_⟩
              intro j hj hmj hurn
              have := ih6 j hj hmj
              rw [hurn] at this
              have h0 : List.lookup (urnAt opre input t)
                  (mergeDictsUpTo ipre opre input t).2 = none := hlook
              rw [h0] at this
              exact Bool.noConfusion this
            have hstep : mergeDictsUpTo ipre opre input (t + 1) =
                ((mergeDictsUpTo ipre opre input t).1.set t
                  (dinsert (jpop (input.getD t []) "ResourceID") "AffectedInfrastructure"
                    (JVal.arr [jstr (input.getD t []) "ResourceID"])),
                 (mergeDictsUpTo ipre opre input t).2 ++
                   [(opre ++ jstr (input.getD t []) "OutageID", t)]) := by
              rw [mergeDictsUpTo_succ]
              unfold mergeDictStep
              have hc : strStartsWith (jstr (input.getD t []) "ID") ipre = true := hm
              simp only [hp, hc, if_true, hlook]
              have hset : ((mergeDictsUpTo ipre opre input t).1.set t
                  (dinsert (jpop (input.getD t []) "ResourceID") "AffectedInfrastructure"
                    (JVal.arr []))).getD t [] =
                  dinsert (jpop (input.getD t []) "ResourceID") "AffectedInfrastructure"
                    (JVal.arr []) := by
                apply jdict_getD_set_self
                rw [ih1]; exact htl
              rw [hset, appendAffected_dinsert, List.set_set]
              simp
            refine ⟨?_, ?_, ?_, ?_, ?_, ?_⟩
            · rw [hstep]; simp [ih1]
            · intro i hi
              rw [hstep]
              have hti : t ≠ i := Nat.ne_of_lt (Nat.lt_of_succ_le hi)
              rw [jdict_getD_set_ne _ _ _ _ hti]
              exact ih2 i (Nat.le_of_succ_le hi)
            · intro i hi hnf
              rw [hstep]
              by_cases hti : t = i
              · subst hti
                exact absurd hfirst hnf
              · rw [jdict_getD_set_ne _ _ _ _ hti]
                rcases Nat.lt_succ_iff_lt_or_eq.mp hi with hi2 | hi2
                · exact ih3 i hi2 hnf
                · exact absurd hi2.symm hti
            · intro i hi hf
              rw [hstep]
              by_cases hti : t = i
              · subst hti
                refine ⟨[jstr (input.getD t []) "ResourceID"], ?_⟩
                apply jdict_getD_set_self
                rw [ih1]; exact htl
              · rw [jdict_getD_set_ne _ _ _ _ hti]
                rcases Nat.lt_succ_iff_lt_or_eq.mp hi with hi2 | hi2
                · exact ih4 i hi2 hf
                · exact absurd hi2.symm hti
            · intro u j2 hj2
              rw [hstep] at hj2
              rw [lookup_append] at hj2
              cases hl2 : List.lookup u (mergeDictsUpTo ipre opre input t).2 with
              | some j3 =>
                  rw [hl2] at hj2
                  have hj3 : j3 = j2 := by
                    simpa using hj2
                  obtain ⟨ha, hb, hc2, hd⟩ := ih5 u j3 hl2
                  exact hj3 ▸ ⟨Nat.lt_succ_of_lt ha, hb, hc2, hd⟩
              | none =>
                  rw [hl2] at hj2
                  simp only [Option.none_or] at hj2
                  by_cases hu : u = opre ++ jstr (input.getD t []) "OutageID"
                  · subst hu
                    rw [lookup_singleton_self] at hj2
                    have hj2' : t = j2 := Option.some.inj hj2
                    subst hj2'
                    exact ⟨Nat.lt_succ_self t, hm, rfl, hfirst⟩
                  · exfalso
                    rw [lookup_singleton_ne _ _ _ hu] at hj2
                    exact Option.noConfusion hj2
            · intro i hi hmi
              rw [hstep]
              rw [lookup_append]
              rcases Nat.lt_succ_iff_lt_or_eq.mp hi with hi2 | hi2
              · have := ih6 i hi2 hmi
                cases hl2 : List.lookup (urnAt opre input i)
                    (mergeDictsUpTo ipre opre input t).2 with
                | some j3 => rfl
                | none => rw [hl2] at this; exact Bool.noConfusion this
              · subst hi2
                cases hl2 : List.lookup (urnAt opre input i)
                    (mergeDictsUpTo ipre opre input i).2 with
                | some j3 => rfl
                | none =>
                    have : List.lookup (urnAt opre input i)
                        [(opre ++ jstr (input.getD i []) "OutageID", i)] = some i :=
                      lookup_singleton_self _ _
                    rw [this]
                    rfl
      · have hm2 : matchesAt ipre input t = false := by
          cases hx : matchesAt ipre input t
          · rfl
          · exact absurd hx hm
        have hstep : mergeDictsUpTo ipre opre input (t + 1) =
            mergeDictsUpTo ipre opre input t := by
          rw [mergeDictsUpTo_succ]
          unfold mergeDictStep
          have hc : strStartsWith (jstr (input.getD t []) "ID") ipre = false := hm2
          simp only [hp, hc, Bool.false_eq_true, if_false]
        rw [hstep]
        refine ⟨ih1, ?_, ?_, ?_, ?_, ?_⟩
        · intro i hi
          exact ih2 i (Nat.le_of_succ_le hi)
        · intro i hi hnf
          rcases Nat.lt_succ_iff_lt_or_eq.mp hi with hi2 | hi2
          · exact ih3 i hi2 hnf
          · subst hi2; exact hp
        · intro i hi hf
          rcases Nat.lt_succ_iff_lt_or_eq.mp hi with hi2 | hi2
          · exact ih4 i hi2 hf
          · subst hi2
            exact absurd hf.1 (by rw [hm2]; exact Bool.noConfusion)
        · intro u j hj
          obtain ⟨ha, hb, hc2, hd⟩ := ih5 u j hj
          exact ⟨Nat.lt_succ_of_lt ha, hb, hc2, hd⟩
        · intro i hi hmi
          rcases Nat.lt_succ_iff_lt_or_eq.mp hi with hi2 | hi2
          · exact ih6 i hi2 hmi
          · subst hi2
            exact absurd hmi (by rw [hm2]; exact Bool.noConfusion)

/-- C10 counterexample: merging a one-record batch mutates the input
record in place through dict aliasing: the record loses its ResourceID
field and gains an AffectedInfrastructure field, so the merge does not
leave the input records unchanged. -/
theorem merge_mutates_input_counterexample :
    (mergeDicts "x:" "n:" [wDictRec]).1 ≠ [wDictRec] ∧
    jget wDictRec "ResourceID" = some (JVal.str "r1") ∧
    jget ((mergeDicts "x:" "n:" [wDictRec]).1.getD 0 []) "ResourceID" = none ∧
    jget wDictRec "AffectedInfrastructure" = none ∧
    jget ((mergeDicts "x:" "n:" [wDictRec]).1.getD 0 []) "AffectedInfrastructure" =
      some (JVal.arr ["r1"]) := by
  refine ⟨by decide, by decide, by decide, by decide, by decide⟩

/-- C10 amended: the merge is a pure function of the input batch (hence
deterministic for a fixed input ordering), preserves the batch length,
and leaves unchanged every record that is not the first prefix-matching
record of its URN group; the first record of each group is mutated in
place, losing its ResourceID field and gaining an AffectedInfrastructure
array field. -/
theorem merge_mutation_frame (ipre opre : String) (input : List JDict) :
    (mergeDicts ipre opre input).1.length = input.length ∧
    (∀ i, i < input.length → ¬ firstOfGroup ipre opre input i →
      (mergeDicts ipre opre input).1.getD i [] = input.getD i []) ∧
    (∀ i, i < input.length → firstOfGroup ipre opre input i →
      ∃ l, (mergeDicts ipre opre input).1.getD i [] =
        dinsert (jpop (input.getD i []) "ResourceID") "AffectedInfrastructure"
          (JVal.arr l)) := by
  have h := mergeDictsUpTo_invariant ipre opre input input.length (Nat.le_refl _)
  have he : mergeDicts ipre opre input = mergeDictsUpTo ipre opre input input.length := rfl
  rw [he]
  exact ⟨h.1, h.2.2.1, h.2.2.2.1⟩

/-- Witness for the amended C10: the single record of the counterexample
batch is first of its group and ends up in the popped-and-extended form. -/
theorem merge_mutation_frame_witness :
    (0 < ([wDictRec] : List JDict).length ∧ firstOfGroup "x:" "n:" [wDictRec] 0) ∧
    (∃ l, (mergeDicts "x:" "n:" [wDictRec]).1.getD 0 [] =
      dinsert (jpop ([wDictRec].getD 0 []) "ResourceID") "AffectedInfrastructure"
        (JVal.arr l)) :=
  ⟨⟨by decide, ⟨by decide, fun j hj _ => absurd hj (Nat.not_lt_zero j)⟩⟩,
    (merge_mutation_frame "x:" "n:" [wDictRec]).2.2 0 (by decide)
      ⟨by decide, fun j hj _ => absurd hj (Nat.not_lt_zero j)⟩⟩

/-- Witness for C9 at an unknown future kind value. -/
theorem classify_kind_cases_witness :
    (("Future-Kind" : String) ≠ "Reconfiguration" ∧ ("Future-Kind" : String) ≠ "Partial") ∧
    classifyOutageType "Future-Kind" = "Outage Full" :=
  ⟨⟨by decide, by decide⟩,
    classify_kind_cases.2.2 "Future-Kind" (by decide) (by decide)⟩

/-! ### Lemmas for the reconciliation pass -/

theorem dinsert_of_not_mem {α : Type} (d : List (String × α)) (k : String) (v : α)
    (h : k ∉ d.map Prod.fst) : dinsert d k v = d ++ [(k, v)] := by
  induction d with
  | nil => rfl
  | cons hd tl ih =>
      obtain ⟨k0, v0⟩ := hd
      have h0 : ¬ k0 = k := fun hx => h (by simp [hx])
      have h1 : k ∉ tl.map Prod.fst := fun hx => h (by simp [hx])
      simp [dinsert, h0, ih h1]

theorem foldl_dinsert_eq_map {α : Type} (f : α → String) (items : List α) :
    ∀ acc : List (String × α), (items.map f).Nodup →
      (∀ n ∈ items, f n ∉ acc.map Prod.fst) →
      items.foldl (fun d n => dinsert d (f n) n) acc = acc ++ items.map (fun n => (f n, n)) := by
  induction items with
  | nil => intro acc _ _; simp
  | cons a items ih =>
      intro acc hnd hdisj
      have ha : f a ∉ acc.map Prod.fst := hdisj a (List.mem_cons_self _ _)
      have hstep : List.foldl (fun d n => dinsert d (f n) n) acc (a :: items) =
          List.foldl (fun d n => dinsert d (f n) n) (dinsert acc (f a) a) items := rfl
      rw [hstep, dinsert_of_not_mem acc (f a) a ha]
      have hnd2 : (items.map f).Nodup := (List.nodup_cons.mp (by simpa using hnd)).2
      have hda : f a ∉ items.map f := (List.nodup_cons.mp (by simpa using hnd)).1
      have hdisj2 : ∀ n ∈ items, f n ∉ (acc ++ [(f a, a)]).map Prod.fst := by
        intro n hn
        simp only [List.map_append, List.mem_append]
        rintro (hx | hx)
        · exact hdisj n (List.mem_cons_of_mem _ hn) hx
        · simp at hx
          exact hda (hx ▸ List.mem_map_of_mem f hn)
      rw [ih (acc ++ [(f a, a)]) hnd2 hdisj2]
      simp

theorem upsertNews_mem_urn (news : List NewsItem) (item : NewsItem) (u : String) :
    (∃ n ∈ upsertNews news item, n.URN = u) ↔
      (∃ n ∈ news, n.URN = u) ∨ u = item.URN := by
  unfold upsertNews
  by_cases hany : news.any (fun n => n.URN = item.URN) = true
  · rw [if_pos hany]
    constructor
    · rintro ⟨n', hn', hu⟩
      obtain ⟨n, hn, hn2⟩ := List.mem_map.mp hn'
      by_cases hcase : n.URN = item.URN
      · rw [if_pos hcase] at hn2
        subst hn2
        exact Or.inr hu.symm
      · rw [if_neg hcase] at hn2
        subst hn2
        exact Or.inl ⟨n, hn, hu⟩
    · rintro (⟨n, hn, hu⟩ | hu)
      · by_cases hcase : n.URN = item.URN
        · refine ⟨item, List.mem_map.mpr ⟨n, hn, by rw [if_pos hcase]⟩, ?_⟩
          rw [← hcase, hu]
        · exact ⟨n, List.mem_map.mpr ⟨n, hn, by rw [if_neg hcase]⟩, hu⟩
      · obtain ⟨n, hn, hn2⟩ := List.any_eq_true.mp hany
        have hn3 : n.URN = item.URN := of_decide_eq_true hn2
        exact ⟨item, List.mem_map.mpr ⟨n, hn, by rw [if_pos hn3]⟩, hu.symm⟩
  · rw [if_neg hany]
    constructor
    · rintro ⟨n, hn, hu⟩
      rcases List.mem_append.mp hn with hx | hx
      · exact Or.inl ⟨n, hx, hu⟩
      · simp at hx
        subst hx
        exact Or.inr hu.symm
    · rintro (⟨n, hn, hu⟩ | hu)
      · exact ⟨n, List.mem_append.mpr (Or.inl hn), hu⟩
      · exact ⟨item, List.mem_append.mpr (Or.inr (by simp)), hu.symm⟩

theorem createdRows_mem (curAssoc : List (String × NewsAssociation)) (urn : String) :
    ∀ resources : List String, ∀ nid : Nat, ∀ r ∈ createdRows curAssoc urn nid resources,
      r.AssociatedType = "Resource" ∧ r.NewsURN = urn ∧ r.AssociatedID ∈ resources ∧
      List.lookup (assocKey urn "Resource" r.AssociatedID) curAssoc = none ∧
      nid ≤ r.id := by
  intro resources
  induction resources with
  | nil => intro nid r hr; simp [createdRows] at hr
  | cons rr rest ih =>
      intro nid r hr
      by_cases hk : (List.lookup (assocKey urn "Resource" rr) curAssoc).isSome = true
      · rw [createdRows, if_pos hk] at hr
        obtain ⟨h1, h2, h3, h4, h5⟩ := ih nid r hr
        exact ⟨h1, h2, List.mem_cons_of_mem _ h3, h4, h5⟩
      · rw [createdRows, if_neg hk] at hr
        rcases List.mem_cons.mp hr with hr2 | hr2
        · subst hr2
          refine ⟨rfl, rfl, List.mem_cons_self _ _, ?_, Nat.le_refl _⟩
          cases hx : List.lookup (assocKey urn "Resource" rr) curAssoc with
          | none => rfl
          | some w => rw [hx] at hk; exact absurd rfl hk
        · obtain ⟨h1, h2, h3, h4, h5⟩ := ih (nid + 1) r hr2
          exact ⟨h1, h2, List.mem_cons_of_mem _ h3, h4,
            Nat.le_trans (Nat.le_succ nid) h5⟩

theorem createdRows_map_aid (curAssoc : List (String × NewsAssociation)) (urn : String) :
    ∀ resources : List String, ∀ nid : Nat,
      (createdRows curAssoc urn nid resources).map (fun r => r.AssociatedID) =
        resources.filter
          (fun rr => (List.lookup (assocKey urn "Resource" rr) curAssoc).isNone) := by
  intro resources
  induction resources with
  | nil => intro nid; rfl
  | cons rr rest ih =>
      intro nid
      by_cases hk : (List.lookup (assocKey urn "Resource" rr) curAssoc).isSome = true
      · have hk2 : (List.lookup (assocKey urn "Resource" rr) curAssoc).isNone = false := by
          cases hx : List.lookup (assocKey urn "Resource" rr) curAssoc with
          | none => rw [hx] at hk; exact Bool.noConfusion hk
          | some w => rfl
        rw [createdRows, if_pos hk, List.filter_cons, hk2]
        simp [ih nid]
      · have hk2 : (List.lookup (assocKey urn "Resource" rr) curAssoc).isNone = true := by
          cases hx : List.lookup (assocKey urn "Resource" rr) curAssoc with
          | none => rfl
          | some w => rw [hx] at hk; exact absurd rfl hk
        rw [createdRows, if_neg hk, List.filter_cons, hk2]
        simp [ih (nid + 1)]

theorem createdRows_length_nid (curAssoc : List (String × NewsAssociation)) (urn : String) :
    ∀ resources : List String, ∀ nid nid' : Nat,
      (createdRows curAssoc urn nid resources).length =
        (createdRows curAssoc urn nid' resources).length := by
  intro resources nid nid'
  have h1 := createdRows_map_aid curAssoc urn resources nid
  have h2 := createdRows_map_aid curAssoc urn resources nid'
  have := congrArg List.length (h1.trans h2.symm)
  simpa using this

theorem createdRows_ids (curAssoc : List (String × NewsAssociation)) (urn : String) :
    ∀ resources : List String, ∀ nid : Nat,
      ((createdRows curAssoc urn nid resources).map (fun r => r.id)).Nodup ∧
      ∀ r ∈ createdRows curAssoc urn nid resources,
        r.id < nid + (createdRows curAssoc urn nid resources).length := by
  intro resources
  induction resources with
  | nil => intro nid; exact ⟨List.nodup_nil, fun r hr => by simp [createdRows] at hr⟩
  | cons rr rest ih =>
      intro nid
      by_cases hk : (List.lookup (assocKey urn "Resource" rr) curAssoc).isSome = true
      · rw [createdRows, if_pos hk]
        exact ih nid
      · rw [createdRows, if_neg hk]
        obtain ⟨ihn, ihb⟩ := ih (nid + 1)
        constructor
        · rw [List.map_cons, List.nodup_cons]
          refine ⟨?_, ihn⟩
          intro hmem
          obtain ⟨r, hr, hrid⟩ := List.mem_map.mp hmem
          have hge := (createdRows_mem curAssoc urn rest (nid + 1) r hr).2.2.2.2
          have hrid2 : r.id = nid := hrid
          omega
        · intro r hr
          rcases List.mem_cons.mp hr with hr2 | hr2
          · have hid : r.id = nid := by rw [hr2]
            simp only [List.length_cons]
            omega
          · have := ihb r hr2
            simp only [List.length_cons]
            omega

theorem createdRows_exists (curAssoc : List (String × NewsAssociation)) (urn : String) :
    ∀ resources : List String, ∀ nid : Nat, ∀ rr ∈ resources,
      List.lookup (assocKey urn "Resource" rr) curAssoc = none →
      ∃ r ∈ createdRows curAssoc urn nid resources, r.AssociatedID = rr := by
  intro resources
  induction resources with
  | nil => intro nid rr hrr; simp at hrr
  | cons rr0 rest ih =>
      intro nid rr hrr hnone
      rcases List.mem_cons.mp hrr with hr2 | hr2
      · subst hr2
        have hk : ¬ (List.lookup (assocKey urn "Resource" rr) curAssoc).isSome = true := by
          rw [hnone]; simp
        rw [createdRows, if_neg hk]
        exact ⟨_, List.mem_cons_self _ _, rfl⟩
      · by_cases hk : (List.lookup (assocKey urn "Resource" rr0) curAssoc).isSome = true
        · rw [createdRows, if_pos hk]
          exact ih nid rr hr2 hnone
        · rw [createdRows, if_neg hk]
          obtain ⟨r, hr, hrid⟩ := ih (nid + 1) rr hr2 hnone
          exact ⟨r, List.mem_cons_of_mem _ hr, hrid⟩

theorem deleteObsoleteAssocs_noFail (newAssoc : List (String × NewsAssociation)) :
    ∀ (curAssoc : List (String × NewsAssociation)) (st : Store),
      deleteObsoleteAssocs noFail curAssoc newAssoc st = Except.ok
        { st with assocs := st.assocs.filter (fun r =>
            !(curAssoc.any (fun kv =>
              (List.lookup kv.1 newAssoc).isNone && kv.2.id == r.id))) } := by
  intro curAssoc
  induction curAssoc with
  | nil =>
      intro st
      unfold deleteObsoleteAssocs
      simp only [List.foldlM, List.any_nil, Bool.not_false, List.filter_true]
      rfl
  | cons kv rest ih =>
      intro st
      by_cases hkv : (List.lookup kv.1 newAssoc).isSome = true
      · have hnone : (List.lookup kv.1 newAssoc).isNone = false := by
          cases hx : List.lookup kv.1 newAssoc with
          | none => rw [hx] at hkv; exact Bool.noConfusion hkv
          | some w => rfl
        have h1 : deleteObsoleteAssocs noFail (kv :: rest) newAssoc st =
            deleteObsoleteAssocs noFail rest newAssoc st := by
          unfold deleteObsoleteAssocs
          simp only [List.foldlM, hkv, if_true]
          rfl
        rw [h1, ih st]
        congr 2
        apply List.filter_congr
        intro r _
        simp [List.any_cons, hnone]
      · have hnone : (List.lookup kv.1 newAssoc).isNone = true := by
          cases hx : List.lookup kv.1 newAssoc with
          | none => rfl
          | some w => rw [hx] at hkv; exact absurd rfl hkv
        have hkv2 : (List.lookup kv.1 newAssoc).isSome = false := by
          cases hx : List.lookup kv.1 newAssoc with
          | none => rfl
          | some w => rw [hx] at hkv; exact absurd rfl hkv
        have hnf : noFail.assocDeleteFail kv.1 = false := rfl
        have h1 : deleteObsoleteAssocs noFail (kv :: rest) newAssoc st =
            deleteObsoleteAssocs noFail rest newAssoc
              { st with assocs := st.assocs.filter (fun r => r.id ≠ kv.2.id) } := by
          unfold deleteObsoleteAssocs
          simp only [List.foldlM, hkv2, Bool.false_eq_true, if_false, hnf]
          rfl
        rw [h1, ih]
        congr 2
        simp only [List.filter_filter]
        apply List.filter_congr
        intro r _
        by_cases hid : kv.2.id = r.id
        · simp [List.any_cons, hnone, hid]
        · have hid2 : ¬ r.id = kv.2.id := fun h => hid h.symm
          simp [List.any_cons, hnone, hid, hid2]

theorem deleteObsoleteNews_noFail (newMap : List (String × NewsItem)) :
    ∀ (cur : List (String × NewsItem)) (st : Store) (stats : Stats),
      deleteObsoleteNews noFail cur newMap st stats = Except.ok
        ({ st with news := st.news.filter (fun n =>
            !(cur.any (fun kv => (List.lookup kv.1 newMap).isNone && kv.1 == n.URN))) },
         { stats with delete := stats.delete +
            (cur.filter (fun kv => (List.lookup kv.1 newMap).isNone)).length }) := by
  intro cur
  induction cur with
  | nil =>
      intro st stats
      unfold deleteObsoleteNews
      simp only [List.foldlM, List.any_nil, Bool.not_false, List.filter_true,
        List.filter_nil, List.length_nil, Nat.add_zero]
      rfl
  | cons kv rest ih =>
      intro st stats
      by_cases hkv : (List.lookup kv.1 newMap).isSome = true
      · have hnone : (List.lookup kv.1 newMap).isNone = false := by
          cases hx : List.lookup kv.1 newMap with
          | none => rw [hx] at hkv; exact Bool.noConfusion hkv
          | some w => rfl
        have h1 : deleteObsoleteNews noFail (kv :: rest) newMap st stats =
            deleteObsoleteNews noFail rest newMap st stats := by
          unfold deleteObsoleteNews
          simp only [List.foldlM, hkv, if_true]
          rfl
        rw [h1, ih st stats]
        have hfeq : st.news.filter (fun n =>
            !(rest.any (fun kv2 => (List.lookup kv2.1 newMap).isNone && kv2.1 == n.URN))) =
            st.news.filter (fun n => !((kv :: rest).any (fun kv2 =>
              (List.lookup kv2.1 newMap).isNone && kv2.1 == n.URN))) := by
          apply List.filter_congr
          intro n _
          simp [List.any_cons, hnone]
        have hleq : (rest.filter (fun kv2 => (List.lookup kv2.1 newMap).isNone)).length =
            ((kv :: rest).filter (fun kv2 => (List.lookup kv2.1 newMap).isNone)).length := by
          rw [List.filter_cons]
          rw [hnone]
          simp
        rw [hfeq, hleq]
      · have hnone : (List.lookup kv.1 newMap).isNone = true := by
          cases hx : List.lookup kv.1 newMap with
          | none => rfl
          | some w => rw [hx] at hkv; exact absurd rfl hkv
        have hkv2 : (List.lookup kv.1 newMap).isSome = false := by
          cases hx : List.lookup kv.1 newMap with
          | none => rfl
          | some w => rw [hx] at hkv; exact absurd rfl hkv
        have hnf : noFail.newsDeleteFail kv.1 = false := rfl
        have h1 : deleteObsoleteNews noFail (kv :: rest) newMap st stats =
            deleteObsoleteNews noFail rest newMap
              { st with news := st.news.filter (fun n => n.URN ≠ kv.1) }
              { stats with delete := stats.delete + 1 } := by
          unfold deleteObsoleteNews
          simp only [List.foldlM, hkv2, Bool.false_eq_true, if_false, hnf]
          rfl
        rw [h1, ih]
        have hfeq : (st.news.filter (fun n => n.URN ≠ kv.1)).filter (fun n =>
            !(rest.any (fun kv2 => (List.lookup kv2.1 newMap).isNone && kv2.1 == n.URN))) =
            st.news.filter (fun n => !((kv :: rest).any (fun kv2 =>
              (List.lookup kv2.1 newMap).isNone && kv2.1 == n.URN))) := by
          rw [List.filter_filter]
          apply List.filter_congr
          intro n _
          rw [List.any_cons]
          by_cases hurn : kv.1 = n.URN
          · have hb : (kv.1 == n.URN) = true := beq_iff_eq.mpr hurn
            have hd : (decide (n.URN ≠ kv.1) : Bool) = false :=
              decide_eq_false (fun hcon => hcon hurn.symm)
            rw [hnone, hb, hd]
            simp
          · have hne : n.URN ≠ kv.1 := fun h => hurn h.symm
            have hb : (kv.1 == n.URN) = false := beq_eq_false_iff_ne.mpr hurn
            have hd : (decide (n.URN ≠ kv.1) : Bool) = true := decide_eq_true hne
            rw [hnone, hb, hd]
            simp
        have hleq : stats.delete + 1 +
            (rest.filter (fun kv2 => (List.lookup kv2.1 newMap).isNone)).length =
            stats.delete + ((kv :: rest).filter (fun kv2 =>
              (List.lookup kv2.1 newMap).isNone)).length := by
          rw [List.filter_cons]
          rw [hnone]
          simp only [if_true, List.length_cons]
          omega
        rw [hfeq, hleq]


theorem foldResources_noFail (curAssoc : List (String × NewsAssociation)) (urn : String) :
    ∀ (resources : List String) (s : LoopSt),
      ∃ s', List.foldlM (stepResource noFail curAssoc urn) s resources = Except.ok s' ∧
        s'.store.news = s.store.news ∧ s'.newMap = s.newMap ∧ s'.stats = s.stats ∧
        s'.store.assocs = s.store.assocs ++
          createdRows curAssoc urn s.store.nextId resources ∧
        s'.store.nextId = s.store.nextId +
          (createdRows curAssoc urn s.store.nextId resources).length ∧
        (∀ k, (List.lookup k s'.newAssoc).isSome = true ↔
          (List.lookup k s.newAssoc).isSome = true ∨
            ∃ rr ∈ resources, k = assocKey urn "Resource" rr) := by
  intro resources
  induction resources with
  | nil =>
      intro s
      refine ⟨s, rfl, rfl, rfl, rfl, by simp [createdRows], by simp [createdRows], ?_⟩
      intro k
      simp
  | cons rr rest ih =>
      intro s
      cases hk : List.lookup (assocKey urn "Resource" rr) curAssoc with
      | some row =>
          have hksome : (List.lookup (assocKey urn "Resource" rr) curAssoc).isSome = true := by
            rw [hk]; rfl
          have hs : stepResource noFail curAssoc urn s rr = Except.ok
              { s with newAssoc := dinsert s.newAssoc (assocKey urn "Resource" rr) row } := by
            unfold stepResource
            simp only [hk]
          have hstep : List.foldlM (stepResource noFail curAssoc urn) s (rr :: rest) =
              List.foldlM (stepResource noFail curAssoc urn)
                { s with newAssoc := dinsert s.newAssoc (assocKey urn "Resource" rr) row }
                rest := by
            rw [List.foldlM_cons, hs]
            rfl
          obtain ⟨s', hok, hnews, hmap, hstats, hassocs, hnid, hiff⟩ :=
            ih { s with newAssoc := dinsert s.newAssoc (assocKey urn "Resource" rr) row }
          refine ⟨s', by rw [hstep]; exact hok, hnews, hmap, hstats, ?_, ?_, ?_⟩
          · rw [hassocs]
            rw [show createdRows curAssoc urn s.store.nextId (rr :: rest) =
              createdRows curAssoc urn s.store.nextId rest from by
                rw [createdRows, if_pos hksome]]
          · rw [hnid]
            rw [show createdRows curAssoc urn s.store.nextId (rr :: rest) =
              createdRows curAssoc urn s.store.nextId rest from by
                rw [createdRows, if_pos hksome]]
          · intro k
            rw [hiff k]
            dsimp only
            have hdin := lookup_dinsert s.newAssoc k (assocKey urn "Resource" rr) row
            constructor
            · rintro (hx | hx)
              · rw [hdin] at hx
                by_cases hkey : assocKey urn "Resource" rr = k
                · exact Or.inr ⟨rr, List.mem_cons_self _ _, hkey.symm⟩
                · rw [if_neg hkey] at hx
                  exact Or.inl hx
              · obtain ⟨rr2, hrr2, hkk⟩ := hx
                exact Or.inr ⟨rr2, List.mem_cons_of_mem _ hrr2, hkk⟩
            · rintro (hx | ⟨rr2, hrr2, hkk⟩)
              · left
                rw [hdin]
                by_cases hkey : assocKey urn "Resource" rr = k
                · rw [if_pos hkey]; rfl
                · rw [if_neg hkey]; exact hx
              · rcases List.mem_cons.mp hrr2 with hr2 | hr2
                · left
                  rw [hdin]
                  subst hr2
                  rw [if_pos hkk.symm]
                  rfl
                · exact Or.inr ⟨rr2, hr2, hkk⟩
      | none =>
          have hknone : ¬ (List.lookup (assocKey urn "Resource" rr) curAssoc).isSome = true := by
            rw [hk]; simp
          have hnf : noFail.assocSaveFail (assocKey urn "Resource" rr) = false := rfl
          have hs : stepResource noFail curAssoc urn s rr = Except.ok
              { s with
                store := { s.store with
                  assocs := s.store.assocs ++ [⟨s.store.nextId, urn, "Resource", rr⟩],
                  nextId := s.store.nextId + 1 },
                newAssoc := dinsert s.newAssoc (assocKey urn "Resource" rr)
                  ⟨s.store.nextId, urn, "Resource", rr⟩ } := by
            unfold stepResource
            simp only [hk, hnf, Bool.false_eq_true, if_false]
          have hstep : List.foldlM (stepResource noFail curAssoc urn) s (rr :: rest) =
              List.foldlM (stepResource noFail curAssoc urn)
                { s with
                  store := { s.store with
                    assocs := s.store.assocs ++ [⟨s.store.nextId, urn, "Resource", rr⟩],
                    nextId := s.store.nextId + 1 },
                  newAssoc := dinsert s.newAssoc (assocKey urn "Resource" rr)
                    ⟨s.store.nextId, urn, "Resource", rr⟩ } rest := by
            rw [List.foldlM_cons, hs]
            rfl
          obtain ⟨s', hok, hnews, hmap, hstats, hassocs, hnid, hiff⟩ :=
            ih { s with
              store := { s.store with
                assocs := s.store.assocs ++ [⟨s.store.nextId, urn, "Resource", rr⟩],
                nextId := s.store.nextId + 1 },
              newAssoc := dinsert s.newAssoc (assocKey urn "Resource" rr)
                ⟨s.store.nextId, urn, "Resource", rr⟩ }
          have hcr : createdRows curAssoc urn s.store.nextId (rr :: rest) =
              ⟨s.store.nextId, urn, "Resource", rr⟩ ::
                createdRows curAssoc urn (s.store.nextId + 1) rest := by
            rw [createdRows, if_neg hknone]
          refine ⟨s', by rw [hstep]; exact hok, hnews, hmap, hstats, ?_, ?_, ?_⟩
          · rw [hassocs, hcr]
            simp
          · rw [hnid, hcr]
            simp only [List.length_cons]
            omega
          · intro k
            rw [hiff k]
            dsimp only
            have hdin := lookup_dinsert s.newAssoc k (assocKey urn "Resource" rr)
              ⟨s.store.nextId, urn, "Resource", rr⟩
            constructor
            · rintro (hx | hx)
              · rw [hdin] at hx
                by_cases hkey : assocKey urn "Resource" rr = k
                · exact Or.inr ⟨rr, List.mem_cons_self _ _, hkey.symm⟩
                · rw [if_neg hkey] at hx
                  exact Or.inl hx
              · obtain ⟨rr2, hrr2, hkk⟩ := hx
                exact Or.inr ⟨rr2, List.mem_cons_of_mem _ hrr2, hkk⟩
            · rintro (hx | ⟨rr2, hrr2, hkk⟩)
              · left
                rw [hdin]
                by_cases hkey : assocKey urn "Resource" rr = k
                · rw [if_pos hkey]; rfl
                · rw [if_neg hkey]; exact hx
              · rcases List.mem_cons.mp hrr2 with hr2 | hr2
                · left
                  rw [hdin]
                  subst hr2
                  rw [if_pos hkk.symm]
                  rfl
                · exact Or.inr ⟨rr2, hr2, hkk⟩

theorem mem_entryPairs_cons (e : String × MergedOutage) (rest : List (String × MergedOutage))
    (u rr : String) :
    (u, rr) ∈ entryPairs (e :: rest) ↔
      (u = e.1 ∧ rr ∈ e.2.AffectedInfrastructure) ∨ (u, rr) ∈ entryPairs rest := by
  unfold entryPairs
  rw [List.flatMap_cons, List.mem_append]
  constructor
  · rintro (hx | hx)
    · obtain ⟨rr2, hrr2, heq⟩ := List.mem_map.mp hx
      have h1 : e.1 = u := congrArg Prod.fst heq
      have h2 : rr2 = rr := congrArg Prod.snd heq
      exact Or.inl ⟨h1.symm, h2 ▸ hrr2⟩
    · exact Or.inr hx
  · rintro (⟨hu, hrr⟩ | hx)
    · exact Or.inl (List.mem_map.mpr ⟨rr, hrr, by rw [hu]⟩)
    · exact Or.inr hx

theorem mem_entryPairKeys_cons (e : String × MergedOutage)
    (rest : List (String × MergedOutage)) (k : String) :
    k ∈ entryPairKeys (e :: rest) ↔
      (∃ rr ∈ e.2.AffectedInfrastructure, k = assocKey e.1 "Resource" rr) ∨
        k ∈ entryPairKeys rest := by
  unfold entryPairKeys entryPairs
  rw [List.flatMap_cons, List.map_append, List.mem_append]
  constructor
  · rintro (hx | hx)
    · rw [List.map_map] at hx
      obtain ⟨rr, hrr, he⟩ := List.mem_map.mp hx
      exact Or.inl ⟨rr, hrr, he.symm⟩
    · exact Or.inr hx
  · rintro (⟨rr, hrr, hk⟩ | hx)
    · left
      rw [List.map_map]
      exact List.mem_map.mpr ⟨rr, hrr, hk.symm⟩
    · exact Or.inr hx

theorem entryPairs_fst_mem (entries : List (String × MergedOutage)) (u rr : String)
    (h : (u, rr) ∈ entryPairs entries) : u ∈ entries.map Prod.fst := by
  obtain ⟨e, he, hm⟩ := List.mem_flatMap.mp h
  obtain ⟨rr2, _, heq⟩ := List.mem_map.mp hm
  have h1 : e.1 = u := congrArg Prod.fst heq
  exact h1 ▸ List.mem_map_of_mem Prod.fst he

theorem foldEntries_noFail (cfg : Config) (curAssoc : List (String × NewsAssociation)) :
    ∀ (entries : List (String × MergedOutage)) (s : LoopSt),
      ∃ s', List.foldlM (stepEntry cfg noFail curAssoc) s entries = Except.ok s' ∧
        s'.store.news = entries.foldl
          (fun ns e => upsertNews ns (mkNewsItem cfg e.1 e.2)) s.store.news ∧
        (∀ u, (∃ n ∈ s'.store.news, n.URN = u) ↔
          (∃ n ∈ s.store.news, n.URN = u) ∨ u ∈ entries.map Prod.fst) ∧
        (∀ u, (List.lookup u s'.newMap).isSome = true ↔
          (List.lookup u s.newMap).isSome = true ∨ u ∈ entries.map Prod.fst) ∧
        (∀ k, (List.lookup k s'.newAssoc).isSome = true ↔
          (List.lookup k s.newAssoc).isSome = true ∨ k ∈ entryPairKeys entries) ∧
        s.store.nextId ≤ s'.store.nextId ∧
        s'.stats.delete = s.stats.delete ∧ s'.stats.skip = s.stats.skip ∧
        (∃ extra, s'.store.assocs = s.store.assocs ++ extra ∧
          (∀ r ∈ extra, r.AssociatedType = "Resource" ∧
            (r.NewsURN, r.AssociatedID) ∈ entryPairs entries ∧
            List.lookup (rowKey r) curAssoc = none ∧
            s.store.nextId ≤ r.id ∧ r.id < s'.store.nextId) ∧
          (∀ u rr, (u, rr) ∈ entryPairs entries →
            List.lookup (assocKey u "Resource" rr) curAssoc = none →
            ∃ r ∈ extra, r.NewsURN = u ∧ r.AssociatedID = rr) ∧
          (extra.map (fun r => r.id)).Nodup ∧
          ((entries.map Prod.fst).Nodup →
            (∀ e ∈ entries, e.2.AffectedInfrastructure.Nodup) →
            (extra.map (fun r => (r.NewsURN, r.AssociatedID))).Nodup)) := by
  intro entries
  induction entries with
  | nil =>
      intro s
      refine ⟨s, rfl, rfl, fun u => by simp, fun u => by simp [entryPairKeys, entryPairs],
        fun k => by simp [entryPairKeys, entryPairs], Nat.le_refl _, rfl, rfl,
        [], by simp, by simp, ?_, by simp, fun _ _ => by simp⟩
      intro u rr h
      simp [entryPairs] at h
  | cons e rest ih =>
      intro s
      have hnf : noFail.upsertFail e.1 = false := rfl
      obtain ⟨s2, hok2, hnews2, hmap2, hstats2, hassocs2, hnid2, hiff2⟩ :=
        foldResources_noFail curAssoc e.1 e.2.AffectedInfrastructure
          ⟨⟨upsertNews s.store.news (mkNewsItem cfg e.1 e.2), s.store.assocs, s.store.nextId⟩,
           dinsert s.newMap e.1 (mkNewsItem cfg e.1 e.2), s.newAssoc,
           ⟨s.stats.update + 1, s.stats.delete, s.stats.skip⟩⟩
      dsimp only at hnews2 hmap2 hassocs2 hnid2 hiff2
      have hstepE : stepEntry cfg noFail curAssoc s e = Except.ok s2 := by
        unfold stepEntry
        simp only [hnf, Bool.false_eq_true, if_false]
        exact hok2
      have hstep : List.foldlM (stepEntry cfg noFail curAssoc) s (e :: rest) =
          List.foldlM (stepEntry cfg noFail curAssoc) s2 rest := by
        rw [List.foldlM_cons, hstepE]
        rfl
      obtain ⟨s', hok', hnewsEqI, hnewsI, hmapI, haI, hnidI, hdelI, hskipI,
        extra2, hext2, hprops2, hexist2, hids2, hpairs2⟩ := ih s2
      have hcreated := createdRows_mem curAssoc e.1 e.2.AffectedInfrastructure s.store.nextId
      have hcrIds := createdRows_ids curAssoc e.1 e.2.AffectedInfrastructure s.store.nextId
      refine ⟨s', by rw [hstep]; exact hok', ?_, ?_, ?_, ?_, ?_, ?_, ?_, ?_⟩
      · rw [hnewsEqI, hnews2, List.foldl_cons]
      · intro u
        rw [hnewsI u, hnews2, upsertNews_mem_urn]
        have hiu : (mkNewsItem cfg e.1 e.2).URN = e.1 := rfl
        rw [hiu]
        simp only [List.map_cons, List.mem_cons]
        exact or_assoc
      · intro u
        rw [hmapI u, hmap2]
        have hdin := lookup_dinsert s.newMap u e.1 (mkNewsItem cfg e.1 e.2)
        simp only [List.map_cons, List.mem_cons]
        constructor
        · rintro (hx | hx)
          · rw [hdin] at hx
            by_cases hkey : e.1 = u
            · exact Or.inr (Or.inl hkey.symm)
            · rw [if_neg hkey] at hx
              exact Or.inl hx
          · exact Or.inr (Or.inr hx)
        · rintro (hx | hx | hx)
          · left
            rw [hdin]
            by_cases hkey : e.1 = u
            · rw [if_pos hkey]; rfl
            · rw [if_neg hkey]; exact hx
          · left
            rw [hdin, if_pos hx.symm]
            rfl
          · exact Or.inr hx
      · intro k
        rw [haI k, hiff2 k, mem_entryPairKeys_cons]
        exact or_assoc
      · have h1 : s.store.nextId ≤ s2.store.nextId := by
          rw [hnid2]
          exact Nat.le_add_right _ _
        exact Nat.le_trans h1 hnidI
      · rw [hdelI]
        rw [show s2.stats = (⟨s.stats.update + 1, s.stats.delete, s.stats.skip⟩ : Stats)
          from hstats2]
      · rw [hskipI]
        rw [show s2.stats = (⟨s.stats.update + 1, s.stats.delete, s.stats.skip⟩ : Stats)
          from hstats2]
      · refine ⟨createdRows curAssoc e.1 s.store.nextId e.2.AffectedInfrastructure ++ extra2,
          ?_, ?_, ?_, ?_, ?_⟩
        · rw [hext2, hassocs2, List.append_assoc]
        · intro r hr
          rcases List.mem_append.mp hr with hr2 | hr2
          · obtain ⟨htype, hurn, haid, hlk, hge⟩ :=
              hcreated r hr2
            refine ⟨htype, ?_, ?_, hge, ?_⟩
            · exact (mem_entryPairs_cons e rest r.NewsURN r.AssociatedID).mpr
                (Or.inl ⟨hurn, haid⟩)
            · rw [show rowKey r = assocKey e.1 "Resource" r.AssociatedID from by
                unfold rowKey; rw [htype, hurn]]
              exact hlk
            · have hb := hcrIds.2 r hr2
              have h2 : s2.store.nextId =
                  s.store.nextId + (createdRows curAssoc e.1 s.store.nextId
                    e.2.AffectedInfrastructure).length := hnid2
              omega
          · obtain ⟨htype, hpair, hlk, hge, hlt⟩ := hprops2 r hr2
            refine ⟨htype, ?_, hlk, ?_, hlt⟩
            · exact (mem_entryPairs_cons e rest r.NewsURN r.AssociatedID).mpr (Or.inr hpair)
            · have h1 : s.store.nextId ≤ s2.store.nextId := by
                rw [hnid2]
                exact Nat.le_add_right _ _
              omega
        · intro u rr hpair hlk
          rcases (mem_entryPairs_cons e rest u rr).mp hpair with ⟨hu, hrr⟩ | hrest
          · subst hu
            obtain ⟨r, hr, hraid⟩ := createdRows_exists curAssoc e.1
              e.2.AffectedInfrastructure s.store.nextId rr hrr hlk
            exact ⟨r, List.mem_append.mpr (Or.inl hr),
              (hcreated r hr).2.1, hraid⟩
          · obtain ⟨r, hr, hru, hraid⟩ := hexist2 u rr hrest hlk
            exact ⟨r, List.mem_append.mpr (Or.inr hr), hru, hraid⟩
        · rw [List.map_append]
          rw [List.nodup_append]
          refine ⟨hcrIds.1, hids2, ?_⟩
          intro a ha1 ha2
          obtain ⟨r1, hr1, hid1⟩ := List.mem_map.mp ha1
          obtain ⟨r2, hr2, hid2⟩ := List.mem_map.mp ha2
          have hb1 := hcrIds.2 r1 hr1
          have hge2 := (hprops2 r2 hr2).2.2.2.1
          have h2 : s2.store.nextId = s.store.nextId +
              (createdRows curAssoc e.1 s.store.nextId
                e.2.AffectedInfrastructure).length := hnid2
          omega
        · intro hkeys hres
          rw [List.map_cons] at hkeys
          have hkc := List.nodup_cons.mp hkeys
          rw [List.map_append, List.nodup_append]
          refine ⟨?_, ?_, ?_⟩
          · have hmapeq : (createdRows curAssoc e.1 s.store.nextId
                e.2.AffectedInfrastructure).map (fun r => (r.NewsURN, r.AssociatedID)) =
                ((createdRows curAssoc e.1 s.store.nextId
                  e.2.AffectedInfrastructure).map (fun r => r.AssociatedID)).map
                    (fun aid => (e.1, aid)) := by
              rw [List.map_map]
              apply List.map_congr_left
              intro r hr
              have hurn := (hcreated r hr).2.1
              show (r.NewsURN, r.AssociatedID) = (e.1, r.AssociatedID)
              rw [hurn]
            rw [hmapeq, createdRows_map_aid]
            apply List.Nodup.map
            · intro a b hab
              exact congrArg Prod.snd hab
            · exact List.Nodup.filter _ (hres e (List.mem_cons_self _ _))
          · exact hpairs2 hkc.2 (fun e2 he2 => hres e2 (List.mem_cons_of_mem _ he2))
          · intro p hp1 hp2
            obtain ⟨r1, hr1, hpeq1⟩ := List.mem_map.mp hp1
            obtain ⟨r2, hr2, hpeq2⟩ := List.mem_map.mp hp2
            have hurn1 := (hcreated r1 hr1).2.1
            have hpair2 := (hprops2 r2 hr2).2.1
            have hfst1 : p.1 = e.1 := by
              rw [← hpeq1, hurn1]
            have hfst2 : p.1 ∈ rest.map Prod.fst := by
              have hp2' : (p.1, p.2) ∈ entryPairs rest := by
                rw [show (p.1, p.2) = p from rfl, ← hpeq2]
                exact hpair2
              exact entryPairs_fst_mem rest p.1 p.2 hp2'
            rw [hfst1] at hfst2
            exact hkc.1 hfst2

theorem mem_entryPairKeys (entries : List (String × MergedOutage)) (k : String) :
    k ∈ entryPairKeys entries ↔
      ∃ p ∈ entryPairs entries, k = assocKey p.1 "Resource" p.2 := by
  unfold entryPairKeys
  constructor
  · intro h
    obtain ⟨p, hp, he⟩ := List.mem_map.mp h
    exact ⟨p, hp, he.symm⟩
  · rintro ⟨p, hp, he⟩
    exact List.mem_map.mpr ⟨p, hp, he.symm⟩

theorem mergedKeys_prefix (ipre opre : String) (batch : List RawRecord) :
    ∀ k ∈ (mergeRecords ipre opre batch).map Prod.fst, strStartsWith k opre = true := by
  intro k hk
  have h1 : k ∈ ((mergeRecords ipre opre batch).map Prod.fst).toFinset :=
    List.mem_toFinset.mpr hk
  have h2 := mergeFold_keys_toFinset ipre opre batch []
  rw [show mergeFold ipre opre [] batch = mergeRecords ipre opre batch from rfl] at h2
  rw [h2] at h1
  simp only [List.map_nil, List.toFinset_nil, Finset.empty_union, List.mem_toFinset] at h1
  obtain ⟨r, _, hr⟩ := List.mem_map.mp h1
  rw [← hr]
  exact strStartsWith_append opre r.OutageID

theorem lookup_map_pairing {α : Type} (key : α → String) (rows : List α) (k : String)
    (row : α) (h : List.lookup k (rows.map (fun r => (key r, r))) = some row) :
    row ∈ rows ∧ key row = k := by
  have hmem := lookup_mem h
  obtain ⟨r0, hr0, heq⟩ := List.mem_map.mp hmem
  have h1 : key r0 = k := congrArg Prod.fst heq
  have h2 : r0 = row := congrArg Prod.snd heq
  subst h2
  exact ⟨hr0, h1⟩

/-- Full characterization of a failure-free pass over a well-formed
store: the observed maps cover exactly the merged keys and pair keys, the
association rows grow by the created rows, and the two deletion phases
are filters against the snapshot dicts. -/
theorem runPass_noFail (cfg : Config) (st : Store) (input : List RawRecord)
    (hWF : StoreWF cfg.NEWSURNPREFIX st) :
    ∃ s1 : LoopSt,
      s1.store.news = (mergeRecords cfg.INPUTURNPREFIX cfg.NEWSURNPREFIX input).foldl
        (fun ns e => upsertNews ns (mkNewsItem cfg e.1 e.2)) st.news ∧
      (∀ u, (∃ n ∈ s1.store.news, n.URN = u) ↔
        (∃ n ∈ st.news, n.URN = u) ∨
          u ∈ (mergeRecords cfg.INPUTURNPREFIX cfg.NEWSURNPREFIX input).map Prod.fst) ∧
      (∀ u, (List.lookup u s1.newMap).isSome = true ↔
        u ∈ (mergeRecords cfg.INPUTURNPREFIX cfg.NEWSURNPREFIX input).map Prod.fst) ∧
      (∀ k, (List.lookup k s1.newAssoc).isSome = true ↔
        k ∈ entryPairKeys (mergeRecords cfg.INPUTURNPREFIX cfg.NEWSURNPREFIX input)) ∧
      st.nextId ≤ s1.store.nextId ∧
      s1.stats.delete = 0 ∧
      (∃ extra, s1.store.assocs = st.assocs ++ extra ∧
        (∀ r ∈ extra, r.AssociatedType = "Resource" ∧
          (r.NewsURN, r.AssociatedID) ∈
            entryPairs (mergeRecords cfg.INPUTURNPREFIX cfg.NEWSURNPREFIX input) ∧
          List.lookup (rowKey r)
            ((st.assocs.filter (fun r2 => strStartsWith r2.NewsURN cfg.NEWSURNPREFIX)).map
              (fun r2 => (rowKey r2, r2))) = none ∧
          st.nextId ≤ r.id ∧ r.id < s1.store.nextId) ∧
        (∀ u rr, (u, rr) ∈
            entryPairs (mergeRecords cfg.INPUTURNPREFIX cfg.NEWSURNPREFIX input) →
          List.lookup (assocKey u "Resource" rr)
            ((st.assocs.filter (fun r2 => strStartsWith r2.NewsURN cfg.NEWSURNPREFIX)).map
              (fun r2 => (rowKey r2, r2))) = none →
          ∃ r ∈ extra, r.NewsURN = u ∧ r.AssociatedID = rr) ∧
        (extra.map (fun r => r.id)).Nodup ∧
        (((mergeRecords cfg.INPUTURNPREFIX cfg.NEWSURNPREFIX input).map Prod.fst).Nodup →
          (∀ e ∈ mergeRecords cfg.INPUTURNPREFIX cfg.NEWSURNPREFIX input,
            e.2.AffectedInfrastructure.Nodup) →
          (extra.map (fun r => (r.NewsURN, r.AssociatedID))).Nodup)) ∧
      runPass cfg noFail st input = (PassOutcome.ret true "",
        ⟨s1.store.news.filter (fun n =>
            !(((st.news.filter (fun n2 => strStartsWith n2.URN cfg.NEWSURNPREFIX)).map
                (fun n2 => (n2.URN, n2))).any (fun kv =>
              (List.lookup kv.1 s1.newMap).isNone && kv.1 == n.URN))),
         s1.store.assocs.filter (fun r =>
            !(((st.assocs.filter (fun r2 => strStartsWith r2.NewsURN cfg.NEWSURNPREFIX)).map
                (fun r2 => (rowKey r2, r2))).any (fun kv =>
              (List.lookup kv.1 s1.newAssoc).isNone && kv.2.id == r.id))),
         s1.store.nextId⟩,
        ⟨s1.stats.update,
         s1.stats.delete +
           (((st.news.filter (fun n2 => strStartsWith n2.URN cfg.NEWSURNPREFIX)).map
              (fun n2 => (n2.URN, n2))).filter (fun kv =>
                (List.lookup kv.1 s1.newMap).isNone)).length,
         s1.stats.skip⟩) := by
  obtain ⟨hURNnodup, hIds, hIdLt, hKeys⟩ := hWF
  have hprefN : ((st.news.filter (fun n =>
      strStartsWith n.URN cfg.NEWSURNPREFIX)).map (fun n => n.URN)).Nodup :=
    List.Sublist.nodup (List.Sublist.map _ (List.filter_sublist _)) hURNnodup
  have hcur : buildNewsDict (st.news.filter (fun n =>
      strStartsWith n.URN cfg.NEWSURNPREFIX)) =
      (st.news.filter (fun n => strStartsWith n.URN cfg.NEWSURNPREFIX)).map
        (fun n => (n.URN, n)) := by
    have h := foldl_dinsert_eq_map (fun n : NewsItem => n.URN)
      (st.news.filter (fun n => strStartsWith n.URN cfg.NEWSURNPREFIX)) [] hprefN
      (by intro n _ h2; simp at h2)
    simpa [buildNewsDict] using h
  have hcurA : buildAssocDict (st.assocs.filter (fun r =>
      strStartsWith r.NewsURN cfg.NEWSURNPREFIX)) =
      (st.assocs.filter (fun r => strStartsWith r.NewsURN cfg.NEWSURNPREFIX)).map
        (fun r => (rowKey r, r)) := by
    have h := foldl_dinsert_eq_map rowKey
      (st.assocs.filter (fun r => strStartsWith r.NewsURN cfg.NEWSURNPREFIX)) [] hKeys
      (by intro r _ h2; simp at h2)
    simpa [buildAssocDict] using h
  obtain ⟨s1, hok1, hnewsEq1, hnews1, hmap1, hassoc1, hnid1, hdel1, hskip1,
      extra, hext, hprops, hexist, hidsN, hpairsN⟩ :=
    foldEntries_noFail cfg
      ((st.assocs.filter (fun r => strStartsWith r.NewsURN cfg.NEWSURNPREFIX)).map
        (fun r => (rowKey r, r)))
      (mergeRecords cfg.INPUTURNPREFIX cfg.NEWSURNPREFIX input)
      ⟨st, [], [], Stats.zero⟩
  dsimp only at hnewsEq1 hnews1 hmap1 hassoc1 hnid1 hdel1 hskip1 hext hprops hexist
  refine ⟨s1, hnewsEq1, ?_, ?_, ?_, hnid1, hdel1,
    ⟨extra, hext, hprops, hexist, hidsN, hpairsN⟩, ?_⟩
  · intro u
    rw [hnews1 u]
  · intro u
    rw [hmap1 u]
    simp [List.lookup]
  · intro k
    rw [hassoc1 k]
    simp [List.lookup]
  · have hdelA := deleteObsoleteAssocs_noFail s1.newAssoc
      ((st.assocs.filter (fun r => strStartsWith r.NewsURN cfg.NEWSURNPREFIX)).map
        (fun r => (rowKey r, r))) s1.store
    have hdelN := deleteObsoleteNews_noFail s1.newMap
      ((st.news.filter (fun n => strStartsWith n.URN cfg.NEWSURNPREFIX)).map
        (fun n => (n.URN, n)))
      { s1.store with assocs := s1.store.assocs.filter (fun r =>
          !(((st.assocs.filter (fun r2 => strStartsWith r2.NewsURN cfg.NEWSURNPREFIX)).map
              (fun r2 => (rowKey r2, r2))).any (fun kv =>
            (List.lookup kv.1 s1.newAssoc).isNone && kv.2.id == r.id))) } s1.stats
    unfold runPass
    simp only [hcur, hcurA, hok1, hdelA, hdelN]

theorem isNone_isSome_absurd {α : Type} (o : Option α) (h1 : o.isNone = true)
    (h2 : o.isSome = true) : False := by
  cases o
  · exact Bool.noConfusion h2
  · exact Bool.noConfusion h1

/-- C1: after a successful reconciliation pass over a well-formed store,
the namespace-scoped persisted entity URNs are exactly the URN set of the
merged batch, and the namespace-scoped association keys are exactly the
keys of the de-duplicated (URN, ResourceID) pairs drawn from the merged
AffectedResources lists. -/
theorem reconcile_convergence (cfg : Config) (st : Store) (input : List RawRecord)
    (hWF : StoreWF cfg.NEWSURNPREFIX st) :
    (runPass cfg noFail st input).1 = PassOutcome.ret true "" ∧
    (∀ u, (∃ n ∈ (runPass cfg noFail st input).2.1.news,
        strStartsWith n.URN cfg.NEWSURNPREFIX = true ∧ n.URN = u) ↔
      u ∈ (mergeRecords cfg.INPUTURNPREFIX cfg.NEWSURNPREFIX input).map Prod.fst) ∧
    (∀ k, (∃ r ∈ (runPass cfg noFail st input).2.1.assocs,
        strStartsWith r.NewsURN cfg.NEWSURNPREFIX = true ∧ rowKey r = k) ↔
      k ∈ entryPairKeys (mergeRecords cfg.INPUTURNPREFIX cfg.NEWSURNPREFIX input)) := by
  obtain ⟨s1, _, hnews1, hmap1, hassoc1, hnid1, hdel1,
      ⟨extra, hext, hprops, hexist, hidsN, _⟩, hrun⟩ := runPass_noFail cfg st input hWF
  obtain ⟨hURNnodup, hIds, hIdLt, hKeys⟩ := hWF
  rw [hrun]
  dsimp only
  refine ⟨rfl, ?_, ?_⟩
  · intro u
    constructor
    · rintro ⟨n, hn, hpre, hurn⟩
      obtain ⟨hn1, hpred⟩ := List.mem_filter.mp hn
      by_cases hu : u ∈ (mergeRecords cfg.INPUTURNPREFIX cfg.NEWSURNPREFIX input).map Prod.fst
      · exact hu
      · exfalso
        rcases (hnews1 u).mp ⟨n, hn1, hurn⟩ with ⟨n2, hn2, hurn2⟩ | hu2
        · have hn2p : n2 ∈ st.news.filter (fun n3 =>
              strStartsWith n3.URN cfg.NEWSURNPREFIX) :=
            List.mem_filter.mpr ⟨hn2, by rw [hurn2]; rw [hurn] at hpre; exact hpre⟩
          have hkv : (n2.URN, n2) ∈ (st.news.filter (fun n3 =>
              strStartsWith n3.URN cfg.NEWSURNPREFIX)).map (fun n3 => (n3.URN, n3)) :=
            List.mem_map_of_mem _ hn2p
          have hnone : (List.lookup n2.URN s1.newMap).isNone = true := by
            cases hx : List.lookup n2.URN s1.newMap with
            | none => rfl
            | some w =>
                exfalso
                have hsome : (List.lookup n2.URN s1.newMap).isSome = true := by
                  rw [hx]; rfl
                rw [hmap1 n2.URN, hurn2] at hsome
                exact hu hsome
          have hany : ((st.news.filter (fun n3 =>
              strStartsWith n3.URN cfg.NEWSURNPREFIX)).map (fun n3 => (n3.URN, n3))).any
              (fun kv => (List.lookup kv.1 s1.newMap).isNone && kv.1 == n.URN) = true := by
            refine List.any_eq_true.mpr ⟨(n2.URN, n2), hkv, ?_⟩
            dsimp only
            rw [hnone, show (n2.URN == n.URN) = true from beq_iff_eq.mpr (by rw [hurn2, hurn])]
            rfl
          rw [hany] at hpred
          exact Bool.noConfusion hpred
        · exact hu hu2
    · intro hu
      have hpre : strStartsWith u cfg.NEWSURNPREFIX = true :=
        mergedKeys_prefix _ _ input u hu
      obtain ⟨n, hn, hurn⟩ := (hnews1 u).mpr (Or.inr hu)
      refine ⟨n, List.mem_filter.mpr ⟨hn, ?_⟩, by rw [hurn]; exact hpre, hurn⟩
      cases hany : ((st.news.filter (fun n3 =>
          strStartsWith n3.URN cfg.NEWSURNPREFIX)).map (fun n3 => (n3.URN, n3))).any
          (fun kv => (List.lookup kv.1 s1.newMap).isNone && kv.1 == n.URN) with
      | false => rfl
      | true =>
          exfalso
          obtain ⟨kv, _, hkvp⟩ := List.any_eq_true.mp hany
          obtain ⟨h1, h2⟩ := Bool.and_eq_true_iff.mp hkvp
          have h3 : kv.1 = n.URN := beq_iff_eq.mp h2
          rw [h3, hurn] at h1
          exact isNone_isSome_absurd _ h1 ((hmap1 u).mpr hu)
  · intro k
    constructor
    · rintro ⟨r, hr, hpre, hkey⟩
      obtain ⟨hr1, hpred⟩ := List.mem_filter.mp hr
      rw [hext] at hr1
      rcases List.mem_append.mp hr1 with hrSt | hrEx
      · by_cases hk : k ∈ entryPairKeys
            (mergeRecords cfg.INPUTURNPREFIX cfg.NEWSURNPREFIX input)
        · exact hk
        · exfalso
          have hrp : r ∈ st.assocs.filter (fun r2 =>
              strStartsWith r2.NewsURN cfg.NEWSURNPREFIX) :=
            List.mem_filter.mpr ⟨hrSt, hpre⟩
          have hkv : (rowKey r, r) ∈ (st.assocs.filter (fun r2 =>
              strStartsWith r2.NewsURN cfg.NEWSURNPREFIX)).map (fun r2 => (rowKey r2, r2)) :=
            List.mem_map_of_mem _ hrp
          have hnone : (List.lookup (rowKey r) s1.newAssoc).isNone = true := by
            cases hx : List.lookup (rowKey r) s1.newAssoc with
            | none => rfl
            | some w =>
                exfalso
                have hsome : (List.lookup (rowKey r) s1.newAssoc).isSome = true := by
                  rw [hx]; rfl
                rw [hassoc1 (rowKey r), hkey] at hsome
                exact hk hsome
          have hany : ((st.assocs.filter (fun r2 =>
              strStartsWith r2.NewsURN cfg.NEWSURNPREFIX)).map (fun r2 => (rowKey r2, r2))).any
              (fun kv => (List.lookup kv.1 s1.newAssoc).isNone && kv.2.id == r.id) = true := by
            refine List.any_eq_true.mpr ⟨(rowKey r, r), hkv, ?_⟩
            dsimp only
            rw [hnone, show (r.id == r.id) = true from beq_iff_eq.mpr rfl]
            rfl
          rw [hany] at hpred
          exact Bool.noConfusion hpred
      · obtain ⟨htype, hpair, _, _, _⟩ := hprops r hrEx
        refine (mem_entryPairKeys _ k).mpr ⟨(r.NewsURN, r.AssociatedID), hpair, ?_⟩
        rw [← hkey]
        unfold rowKey
        rw [htype]
    · intro hk
      obtain ⟨p, hpair, hkeq⟩ := (mem_entryPairKeys _ k).mp hk
      obtain ⟨u, rr⟩ := p
      have hu : u ∈ (mergeRecords cfg.INPUTURNPREFIX cfg.NEWSURNPREFIX input).map Prod.fst :=
        entryPairs_fst_mem _ u rr hpair
      have hupre : strStartsWith u cfg.NEWSURNPREFIX = true :=
        mergedKeys_prefix _ _ input u hu
      cases hcase : List.lookup k ((st.assocs.filter (fun r2 =>
          strStartsWith r2.NewsURN cfg.NEWSURNPREFIX)).map (fun r2 => (rowKey r2, r2))) with
      | some row =>
          obtain ⟨hrowMem, hrowKey⟩ := lookup_map_pairing rowKey _ k row hcase
          obtain ⟨hrowSt, hrowPre⟩ := List.mem_filter.mp hrowMem
          have hrmem : row ∈ s1.store.assocs := by
            rw [hext]
            exact List.mem_append.mpr (Or.inl hrowSt)
          refine ⟨row, List.mem_filter.mpr ⟨hrmem, ?_⟩, hrowPre, hrowKey⟩
          cases hany : ((st.assocs.filter (fun r2 =>
              strStartsWith r2.NewsURN cfg.NEWSURNPREFIX)).map (fun r2 => (rowKey r2, r2))).any
              (fun kv => (List.lookup kv.1 s1.newAssoc).isNone && kv.2.id == row.id) with
          | false => rfl
          | true =>
              exfalso
              obtain ⟨kv, hkvMem, hkvp⟩ := List.any_eq_true.mp hany
              obtain ⟨h1, h2⟩ := Bool.and_eq_true_iff.mp hkvp
              obtain ⟨r2, hr2Mem, hr2eq⟩ := List.mem_map.mp hkvMem
              obtain ⟨hr2St, _⟩ := List.mem_filter.mp hr2Mem
              have hr2a : r2.id = row.id := by
                have := beq_iff_eq.mp h2
                rw [← hr2eq] at this
                exact this
              have hr2row : r2 = row :=
                List.inj_on_of_nodup_map hIds hr2St hrowSt hr2a
              have hkv1 : kv.1 = k := by
                rw [← hr2eq]
                dsimp only
                rw [hr2row, hrowKey]
              rw [hkv1] at h1
              exact isNone_isSome_absurd _ h1 ((hassoc1 k).mpr hk)
      | none =>
          have hnone2 : List.lookup (assocKey u "Resource" rr)
              ((st.assocs.filter (fun r2 =>
                strStartsWith r2.NewsURN cfg.NEWSURNPREFIX)).map
                  (fun r2 => (rowKey r2, r2))) = none := by
            rw [← hkeq]
            exact hcase
          obtain ⟨r, hrEx, hrURN, hrAid⟩ := hexist u rr hpair hnone2
          obtain ⟨htype, _, _, hge, _⟩ := hprops r hrEx
          have hrk : rowKey r = k := by
            unfold rowKey
            rw [htype, hrURN, hrAid, hkeq]
          have hrmem : r ∈ s1.store.assocs := by
            rw [hext]
            exact List.mem_append.mpr (Or.inr hrEx)
          have hrpre : strStartsWith r.NewsURN cfg.NEWSURNPREFIX = true := by
            rw [hrURN]
            exact hupre
          refine ⟨r, List.mem_filter.mpr ⟨hrmem, ?_⟩, hrpre, hrk⟩
          cases hany : ((st.assocs.filter (fun r2 =>
              strStartsWith r2.NewsURN cfg.NEWSURNPREFIX)).map (fun r2 => (rowKey r2, r2))).any
              (fun kv => (List.lookup kv.1 s1.newAssoc).isNone && kv.2.id == r.id) with
          | false => rfl
          | true =>
              exfalso
              obtain ⟨kv, hkvMem, hkvp⟩ := List.any_eq_true.mp hany
              obtain ⟨_, h2⟩ := Bool.and_eq_true_iff.mp hkvp
              obtain ⟨r2, hr2Mem, hr2eq⟩ := List.mem_map.mp hkvMem
              obtain ⟨hr2St, _⟩ := List.mem_filter.mp hr2Mem
              have hr2a : r2.id = r.id := by
                have := beq_iff_eq.mp h2
                rw [← hr2eq] at this
                exact this
              have hlt := hIdLt r2 hr2St
              omega

/-- Witness for C1: the section 8 example batch against the empty store.
The conclusion is the instantiated convergence statement. -/
theorem reconcile_convergence_witness :
    StoreWF wCfg.NEWSURNPREFIX wEmptyStore ∧
    ((runPass wCfg noFail wEmptyStore [wRec1, wRec2]).1 = PassOutcome.ret true "" ∧
    (∀ u, (∃ n ∈ (runPass wCfg noFail wEmptyStore [wRec1, wRec2]).2.1.news,
        strStartsWith n.URN wCfg.NEWSURNPREFIX = true ∧ n.URN = u) ↔
      u ∈ (mergeRecords wCfg.INPUTURNPREFIX wCfg.NEWSURNPREFIX [wRec1, wRec2]).map
        Prod.fst) ∧
    (∀ k, (∃ r ∈ (runPass wCfg noFail wEmptyStore [wRec1, wRec2]).2.1.assocs,
        strStartsWith r.NewsURN wCfg.NEWSURNPREFIX = true ∧ rowKey r = k) ↔
      k ∈ entryPairKeys (mergeRecords wCfg.INPUTURNPREFIX wCfg.NEWSURNPREFIX
        [wRec1, wRec2]))) :=
  ⟨by constructor
      · decide
      · exact ⟨by decide, by decide, by decide⟩,
   reconcile_convergence wCfg wEmptyStore [wRec1, wRec2]
     ⟨by decide, by decide, by decide, by decide⟩⟩

theorem filter_comm {α : Type} (p q : α → Bool) (l : List α) :
    (l.filter p).filter q = (l.filter q).filter p := by
  rw [List.filter_filter, List.filter_filter]
  apply List.filter_congr
  intro a _
  exact Bool.and_comm _ _

/-- C2 counterexample: Run tests the fetched data with a plain truthiness
check (if SOURCE_DATA), so a cycle whose fetched batch is the empty list
skips reconciliation entirely: the store (one entity, two associations)
is left untouched, nothing is deleted, and no outcome is reported. -/
theorem empty_batch_skips_counterexample :
    runCycle wCfg noFail wStore [] = (wStore, Stats.zero, none) ∧
    (runCycle wCfg noFail wStore []).1.news.map (fun n => n.URN) = ["n:A"] ∧
    (runCycle wCfg noFail wStore []).1.assocs.map rowKey =
      ["n:A->Resource/r1", "n:A->Resource/r2"] ∧
    (runCycle wCfg noFail wStore []).2.1.delete = 0 := by
  refine ⟨by decide, by decide, by decide, by decide⟩

/-- C2 amended: the deletion behavior holds for a cycle whose fetched
batch is non-empty but contains no prefix-matching record (so the merged
batch is empty): the entity and both associations are deleted and the
Deleted stat reports 1; a literally empty fetched batch instead skips
reconciliation (see the counterexample). -/
theorem empty_merge_deletes_all (cfg : Config) (st : Store) (input : List RawRecord)
    (hWF : StoreWF cfg.NEWSURNPREFIX st) (n0 : NewsItem) (r1 r2 : NewsAssociation)
    (hN : st.news.filter (fun n => strStartsWith n.URN cfg.NEWSURNPREFIX) = [n0])
    (hA : st.assocs.filter (fun r => strStartsWith r.NewsURN cfg.NEWSURNPREFIX) = [r1, r2])
    (hne : input ≠ [])
    (hnm : ∀ r ∈ input, strStartsWith r.ID cfg.INPUTURNPREFIX = false) :
    (runCycle cfg noFail st input).2.2 = some (PassOutcome.ret true "") ∧
    (runCycle cfg noFail st input).1.news.filter
      (fun n => strStartsWith n.URN cfg.NEWSURNPREFIX) = [] ∧
    (runCycle cfg noFail st input).1.assocs.filter
      (fun r => strStartsWith r.NewsURN cfg.NEWSURNPREFIX) = [] ∧
    (runCycle cfg noFail st input).2.1.delete = 1 := by
  have hfilter : input.filter (fun r => strStartsWith r.ID cfg.INPUTURNPREFIX) = [] := by
    rw [List.filter_eq_nil_iff]
    intro a ha
    rw [hnm a ha]
    simp
  have hmerged : mergeRecords cfg.INPUTURNPREFIX cfg.NEWSURNPREFIX input = [] := by
    unfold mergeRecords
    rw [← mergeFold_filter, hfilter]
    rfl
  obtain ⟨s1, hnewsEq1, hnews1, hmap1, hassoc1, _, hdel1,
      ⟨extra, hext, hprops, _, _, _⟩, hrun⟩ := runPass_noFail cfg st input hWF
  have hextraNil : extra = [] := by
    cases hx : extra with
    | nil => rfl
    | cons r rest =>
        exfalso
        have hp := (hprops r (by rw [hx]; exact List.mem_cons_self _ _)).2.1
        rw [hmerged] at hp
        simp [entryPairs] at hp
  have hs1news : s1.store.news = st.news := by
    rw [hnewsEq1, hmerged]
    rfl
  have hs1assocs : s1.store.assocs = st.assocs := by
    rw [hext, hextraNil, List.append_nil]
  have hcycle : runCycle cfg noFail st input = ((runPass cfg noFail st input).2.1,
      (runPass cfg noFail st input).2.2, some (runPass cfg noFail st input).1) := by
    unfold runCycle
    cases input with
    | nil => exact absurd rfl hne
    | cons a l => rfl
  rw [hcycle, hrun]
  dsimp only
  have hmapNone : ∀ u, List.lookup u s1.newMap = none := by
    intro u
    cases hx : List.lookup u s1.newMap with
    | none => rfl
    | some w =>
        exfalso
        have hsome : (List.lookup u s1.newMap).isSome = true := by rw [hx]; rfl
        rw [hmap1 u, hmerged] at hsome
        simp at hsome
  have haNone : ∀ k, List.lookup k s1.newAssoc = none := by
    intro k
    cases hx : List.lookup k s1.newAssoc with
    | none => rfl
    | some w =>
        exfalso
        have hsome : (List.lookup k s1.newAssoc).isSome = true := by rw [hx]; rfl
        rw [hassoc1 k, hmerged] at hsome
        simp [entryPairKeys, entryPairs] at hsome
  refine ⟨rfl, ?_, ?_, ?_⟩
  · rw [hs1news, filter_comm, hN]
    simp only [List.map_cons, List.map_nil, List.any_cons, List.any_nil,
      List.filter_cons, List.filter_nil]
    rw [hmapNone n0.URN]
    simp
  · rw [hs1assocs, filter_comm, hA]
    simp only [List.map_cons, List.map_nil, List.any_cons, List.any_nil,
      List.filter_cons, List.filter_nil]
    rw [haNone (rowKey r1), haNone (rowKey r2)]
    simp
  · rw [hdel1, hN]
    simp only [List.map_cons, List.map_nil, List.filter_cons, List.filter_nil]
    rw [hmapNone n0.URN]
    simp

/-- Witness for the amended C2: the store of the section 8 example and a
batch holding only one record from a foreign namespace. -/
theorem empty_merge_deletes_all_witness :
    (StoreWF wCfg.NEWSURNPREFIX wStore ∧
     wStore.news.filter (fun n => strStartsWith n.URN wCfg.NEWSURNPREFIX) = [wNews] ∧
     wStore.assocs.filter (fun r => strStartsWith r.NewsURN wCfg.NEWSURNPREFIX) =
       [wRow1, wRow2] ∧
     ([wRecOther] : List RawRecord) ≠ [] ∧
     (∀ r ∈ [wRecOther], strStartsWith r.ID wCfg.INPUTURNPREFIX = false)) ∧
    ((runCycle wCfg noFail wStore [wRecOther]).2.2 = some (PassOutcome.ret true "") ∧
     (runCycle wCfg noFail wStore [wRecOther]).1.news.filter
       (fun n => strStartsWith n.URN wCfg.NEWSURNPREFIX) = [] ∧
     (runCycle wCfg noFail wStore [wRecOther]).1.assocs.filter
       (fun r => strStartsWith r.NewsURN wCfg.NEWSURNPREFIX) = [] ∧
     (runCycle wCfg noFail wStore [wRecOther]).2.1.delete = 1) :=
  ⟨⟨⟨by decide, by decide, by decide, by decide⟩, by decide, by decide, by decide,
     by decide⟩,
   empty_merge_deletes_all wCfg wStore [wRecOther]
     ⟨by decide, by decide, by decide, by decide⟩ wNews wRow1 wRow2
     (by decide) (by decide) (by decide) (by decide)⟩

/-- C3 counterexample: a batch in which the same ResourceID appears twice
for one OutageID (two feed rows) and the pair is not in the snapshot:
the pass saves two association rows with the same composite identity
(URN n:A, type Resource, id r1), so the rows are not unique. -/
theorem assoc_duplicate_rows_counterexample :
    ((runPass wCfg noFail wEmptyStore [wRec1, wRecDup]).2.1.assocs.filter
      (fun r => r.NewsURN == "n:A" && r.AssociatedType == "Resource" &&
        r.AssociatedID == "r1")).length = 2 := by
  decide

theorem length_filter_mono {α : Type} (p q : α → Bool) (l : List α)
    (h : ∀ x ∈ l, p x = true → q x = true) :
    (l.filter p).length ≤ (l.filter q).length := by
  induction l with
  | nil => exact Nat.le_refl 0
  | cons a l ih =>
      have ih2 := ih (fun x hx => h x (List.mem_cons_of_mem _ hx))
      by_cases hp : p a = true
      · have hq := h a (List.mem_cons_self _ _) hp
        rw [List.filter_cons, List.filter_cons, hp, hq]
        simp only [if_true, List.length_cons]
        exact Nat.succ_le_succ ih2
      · have hp2 : p a = false := by
          cases hx : p a
          · rfl
          · exact absurd hx hp
        rw [List.filter_cons, hp2]
        simp only [Bool.false_eq_true, if_false]
        rcases Bool.eq_false_or_eq_true (q a) with hq | hq
        · rw [List.filter_cons, hq]
          simp only [if_true, List.length_cons]
          exact Nat.le_trans ih2 (Nat.le_succ _)
        · rw [List.filter_cons, hq]
          simp only [Bool.false_eq_true, if_false]
          exact ih2

theorem length_filter_le_one_of_nodup_map {α β : Type} (f : α → β) (l : List α)
    (hnd : (l.map f).Nodup) (p : α → Bool) (k : β)
    (h : ∀ x ∈ l, p x = true → f x = k) : (l.filter p).length ≤ 1 := by
  induction l with
  | nil => exact Nat.le_of_lt Nat.zero_lt_one
  | cons a l ih =>
      rw [List.map_cons, List.nodup_cons] at hnd
      have ih2 := ih hnd.2 (fun x hx => h x (List.mem_cons_of_mem _ hx))
      by_cases hp : p a = true
      · rw [List.filter_cons, hp]
        simp only [if_true, List.length_cons]
        have hnil : l.filter p = [] := by
          rw [List.eq_nil_iff_forall_not_mem]
          intro x hx
          obtain ⟨hx1, hx2⟩ := List.mem_filter.mp hx
          have hfx : f x = k := h x (List.mem_cons_of_mem _ hx1) hx2
          have hfa : f a = k := h a (List.mem_cons_self _ _) hp
          exact hnd.1 (by rw [hfa, ← hfx]; exact List.mem_map_of_mem f hx1)
        rw [hnil]
        exact Nat.le_refl 1
      · have hp2 : p a = false := by
          cases hx : p a
          · rfl
          · exact absurd hx hp
        rw [List.filter_cons, hp2]
        simp only [Bool.false_eq_true, if_false]
        exact ih2

/-- C3 amended: association rows are unique by their composite identity
(EntityURN, AssociationType, AssociationID) after a failure-free pass
over a well-formed store, provided no ResourceID appears twice in the
same MergedOutage AffectedResources list.  (When a ResourceID does repeat
for a pair absent from the snapshot, the code saves one row per
occurrence: see the counterexample.) -/
theorem assoc_unique_by_identity (cfg : Config) (st : Store) (input : List RawRecord)
    (hWF : StoreWF cfg.NEWSURNPREFIX st)
    (hnodup : ∀ e ∈ mergeRecords cfg.INPUTURNPREFIX cfg.NEWSURNPREFIX input,
      e.2.AffectedInfrastructure.Nodup) :
    ∀ u t rr, strStartsWith u cfg.NEWSURNPREFIX = true →
      ((runPass cfg noFail st input).2.1.assocs.filter (fun r =>
        r.NewsURN == u && r.AssociatedType == t && r.AssociatedID == rr)).length ≤ 1 := by
  obtain ⟨s1, _, hnews1, hmap1, hassoc1, hnid1, hdel1,
      ⟨extra, hext, hprops, hexist, hidsN, hpairsN⟩, hrun⟩ := runPass_noFail cfg st input hWF
  have hkeysN : ((mergeRecords cfg.INPUTURNPREFIX cfg.NEWSURNPREFIX input).map
      Prod.fst).Nodup := mergeFold_keys_nodup _ _ input [] (by simp)
  have hpairs := hpairsN hkeysN hnodup
  obtain ⟨hURNnodup, hIds, hIdLt, hKeys⟩ := hWF
  intro u t rr hupre
  rw [hrun]
  dsimp only
  rw [hext, List.filter_append, List.filter_append, List.length_append]
  have hident : ∀ r : NewsAssociation,
      (r.NewsURN == u && r.AssociatedType == t && r.AssociatedID == rr) = true →
      r.NewsURN = u ∧ r.AssociatedType = t ∧ r.AssociatedID = rr := by
    intro r hr
    obtain ⟨h1, h3⟩ := Bool.and_eq_true_iff.mp hr
    obtain ⟨h1a, h1b⟩ := Bool.and_eq_true_iff.mp h1
    exact ⟨beq_iff_eq.mp h1a, beq_iff_eq.mp h1b, beq_iff_eq.mp h3⟩
  by_cases hrow0 : ∃ r0 ∈ st.assocs, r0.NewsURN = u ∧ r0.AssociatedType = t ∧
      r0.AssociatedID = rr
  · obtain ⟨r0, hr0St, hr0u, hr0t, hr0rr⟩ := hrow0
    have hr0pre : r0 ∈ st.assocs.filter (fun r2 =>
        strStartsWith r2.NewsURN cfg.NEWSURNPREFIX) :=
      List.mem_filter.mpr ⟨hr0St, by rw [hr0u]; exact hupre⟩
    have hextnone : (List.filter (fun r =>
        r.NewsURN == u && r.AssociatedType == t && r.AssociatedID == rr)
        (List.filter (fun r =>
          !(((st.assocs.filter (fun r2 => strStartsWith r2.NewsURN cfg.NEWSURNPREFIX)).map
              (fun r2 => (rowKey r2, r2))).any (fun kv =>
            (List.lookup kv.1 s1.newAssoc).isNone && kv.2.id == r.id))) extra)) = [] := by
      rw [List.eq_nil_iff_forall_not_mem]
      intro r hr
      obtain ⟨hrs, hrident⟩ := List.mem_filter.mp hr
      obtain ⟨hrex, _⟩ := List.mem_filter.mp hrs
      obtain ⟨hru, hrt, hrrr⟩ := hident r hrident
      have hlk := (hprops r hrex).2.2.1
      have hrk : rowKey r = rowKey r0 := by
        unfold rowKey
        rw [hru, hrt, hrrr, hr0u, hr0t, hr0rr]
      have hmemkey : (List.lookup (rowKey r)
          ((st.assocs.filter (fun r2 => strStartsWith r2.NewsURN cfg.NEWSURNPREFIX)).map
            (fun r2 => (rowKey r2, r2)))).isSome = true := by
        rw [lookup_isSome_iff_mem_keys]
        rw [hrk]
        have : (rowKey r0, r0) ∈ (st.assocs.filter (fun r2 =>
            strStartsWith r2.NewsURN cfg.NEWSURNPREFIX)).map (fun r2 => (rowKey r2, r2)) :=
          List.mem_map_of_mem _ hr0pre
        exact List.mem_map.mpr ⟨(rowKey r0, r0), this, rfl⟩
      rw [hlk] at hmemkey
      exact Bool.noConfusion hmemkey
    rw [hextnone]
    simp only [List.length_nil, Nat.add_zero]
    have hmono : (List.filter (fun r =>
        r.NewsURN == u && r.AssociatedType == t && r.AssociatedID == rr)
        (List.filter (fun r =>
          !(((st.assocs.filter (fun r2 => strStartsWith r2.NewsURN cfg.NEWSURNPREFIX)).map
              (fun r2 => (rowKey r2, r2))).any (fun kv =>
            (List.lookup kv.1 s1.newAssoc).isNone && kv.2.id == r.id))) st.assocs)).length ≤
        (st.assocs.filter (fun r =>
          r.NewsURN == u && r.AssociatedType == t && r.AssociatedID == rr)).length := by
      rw [List.filter_filter]
      apply length_filter_mono
      intro x _ hx
      exact (Bool.and_eq_true_iff.mp hx).1
    refine Nat.le_trans hmono ?_
    have hsub : st.assocs.filter (fun r =>
        r.NewsURN == u && r.AssociatedType == t && r.AssociatedID == rr) =
        (st.assocs.filter (fun r2 => strStartsWith r2.NewsURN cfg.NEWSURNPREFIX)).filter
          (fun r => r.NewsURN == u && r.AssociatedType == t && r.AssociatedID == rr) := by
      rw [List.filter_filter]
      apply List.filter_congr
      intro x _
      rcases Bool.eq_false_or_eq_true
          (x.NewsURN == u && x.AssociatedType == t && x.AssociatedID == rr) with hbx | hbx
      · obtain ⟨hxu, _, _⟩ := hident x hbx
        rw [hbx, hxu, hupre]
        rfl
      · rw [hbx]
        simp
    rw [hsub]
    apply length_filter_le_one_of_nodup_map rowKey _ hKeys
    intro x _ hx
    obtain ⟨hxu, hxt, hxrr⟩ := hident x hx
    unfold rowKey
    rw [hxu, hxt, hxrr]
  · have hstnone : (List.filter (fun r =>
        r.NewsURN == u && r.AssociatedType == t && r.AssociatedID == rr)
        (List.filter (fun r =>
          !(((st.assocs.filter (fun r2 => strStartsWith r2.NewsURN cfg.NEWSURNPREFIX)).map
              (fun r2 => (rowKey r2, r2))).any (fun kv =>
            (List.lookup kv.1 s1.newAssoc).isNone && kv.2.id == r.id))) st.assocs)) = [] := by
      rw [List.eq_nil_iff_forall_not_mem]
      intro r hr
      obtain ⟨hrs, hrident⟩ := List.mem_filter.mp hr
      obtain ⟨hrSt, _⟩ := List.mem_filter.mp hrs
      exact hrow0 ⟨r, hrSt, hident r hrident⟩
    rw [hstnone]
    simp only [List.length_nil, Nat.zero_add]
    have hmono : (List.filter (fun r =>
        r.NewsURN == u && r.AssociatedType == t && r.AssociatedID == rr)
        (List.filter (fun r =>
          !(((st.assocs.filter (fun r2 => strStartsWith r2.NewsURN cfg.NEWSURNPREFIX)).map
              (fun r2 => (rowKey r2, r2))).any (fun kv =>
            (List.lookup kv.1 s1.newAssoc).isNone && kv.2.id == r.id))) extra)).length ≤
        (extra.filter (fun r =>
          r.NewsURN == u && r.AssociatedType == t && r.AssociatedID == rr)).length := by
      rw [List.filter_filter]
      apply length_filter_mono
      intro x _ hx
      exact (Bool.and_eq_true_iff.mp hx).1
    refine Nat.le_trans hmono ?_
    apply length_filter_le_one_of_nodup_map (fun r => (r.NewsURN, r.AssociatedID)) _ hpairs
      _ (u, rr)
    intro x _ hx
    obtain ⟨hxu, _, hxrr⟩ := hident x hx
    rw [hxu, hxrr]

/-- Witness for the amended C3: the section 8 example batch (each group
lists each resource once) against the empty store. -/
theorem assoc_unique_by_identity_witness :
    (StoreWF wCfg.NEWSURNPREFIX wEmptyStore ∧
     ∀ e ∈ mergeRecords wCfg.INPUTURNPREFIX wCfg.NEWSURNPREFIX [wRec1, wRec2],
       e.2.AffectedInfrastructure.Nodup) ∧
    (∀ u t rr, strStartsWith u wCfg.NEWSURNPREFIX = true →
      ((runPass wCfg noFail wEmptyStore [wRec1, wRec2]).2.1.assocs.filter (fun r =>
        r.NewsURN == u && r.AssociatedType == t && r.AssociatedID == rr)).length ≤ 1) :=
  ⟨⟨⟨by decide, by decide, by decide, by decide⟩, by decide⟩,
   assoc_unique_by_identity wCfg wEmptyStore [wRec1, wRec2]
     ⟨by decide, by decide, by decide, by decide⟩ (by decide)⟩

/-- C4: code_bug.  A persistence failure while upserting the entity for
URN n:B does abort the pass with no further creates attempted, but the
pass does not return the pair (false, error-message): the except handler
at lines 333-335 evaluates e.message, which does not exist on Python 3
exceptions (and its format string has four placeholders for three
arguments), so an AttributeError escapes Warehouse_XSEDE_News instead of
the return (false, msg).  Against the empty store with a two-group batch
where the save of n:B fails, the outcome is the exception, the first
group's entity n:A was already created, and n:B was not. -/
theorem entity_save_failure_raises :
    (runPass wCfg wFailUpsertB wEmptyStore [wRec1, wRecB]).1 =
      PassOutcome.exc "AttributeError" ∧
    (∀ ok msg, (runPass wCfg wFailUpsertB wEmptyStore [wRec1, wRecB]).1 ≠
      PassOutcome.ret ok msg) ∧
    (runPass wCfg wFailUpsertB wEmptyStore [wRec1, wRecB]).2.1.news.map
      (fun n => n.URN) = ["n:A"] := by
  refine ⟨by decide, ?_, by decide⟩
  intro ok msg h
  have h2 : (runPass wCfg wFailUpsertB wEmptyStore [wRec1, wRecB]).1 =
      PassOutcome.exc "AttributeError" := by decide
  rw [h2] at h
  exact PassOutcome.noConfusion h

/-- C5: code_bug.  A persistence failure while deleting an obsolete
association is not logged-and-skipped: the except handler at lines
361-363 evaluates e.message, raising AttributeError, so the pass aborts
at that point.  Against the store holding entity n:A with two
associations and a batch with no prefix-matching records, an injected
failure on deleting association key n:A->Resource/r1 leaves both
association rows and the entity in place (the entity-deletion loop is
never reached, Deleted stays 0) and no (true, "") is returned. -/
theorem deletion_failure_raises :
    (runPass wCfg wFailDelAssoc wStore [wRecOther]).1 =
      PassOutcome.exc "AttributeError" ∧
    (∀ ok msg, (runPass wCfg wFailDelAssoc wStore [wRecOther]).1 ≠
      PassOutcome.ret ok msg) ∧
    (runPass wCfg wFailDelAssoc wStore [wRecOther]).2.1.news.map
      (fun n => n.URN) = ["n:A"] ∧
    (runPass wCfg wFailDelAssoc wStore [wRecOther]).2.1.assocs =
      [wRow1, wRow2] ∧
    (runPass wCfg wFailDelAssoc wStore [wRecOther]).2.2.delete = 0 := by
  refine ⟨by decide, ?_, by decide, by decide, by decide⟩
  intro ok msg h
  have h2 : (runPass wCfg wFailDelAssoc wStore [wRecOther]).1 =
      PassOutcome.exc "AttributeError" := by decide
  rw [h2] at h
  exact PassOutcome.noConfusion h

end RouterNews
